import Mathlib

/-!
# The ZFS per-zone I/O throttle (`usr/src/uts/common/fs/zfs/zfs_zone.c`)

A shallow embedding of the kernel half of `zfs_zone.c` and theorems about it.

Integer model.  `hrtime_t` and `int` values are signed and are carried as `Int`:
signed overflow is undefined in C and is outside the model, and so is a
generation count `delta / ZONE_CYCLE_TIME` that does not fit the `int` it is
converted to (a gap of 2^31 cycles).  Timestamps are microseconds.  Unsigned
values are carried by their mathematical value and every conversion to an
unsigned type that the source performs is explicit: `to_uint16` for `uint16_t`,
`to_uint_t` for `uint_t`.  The one narrowing of a signed value that a receivable
input reaches, the `hrtime_t` latency handed to the parameter `int lat` of
`add_sys_iop`, is explicit too: `to_int`.  C division truncates toward zero and
is `Int.tdiv`; the two divisors that are not constants are named, `roll_divisor`
and `weighted_divisor`.

Pointers to structures become explicit state passing: a function that updates
`*cp` returns the new value of the structure next to its C return value.
-/

namespace ZfsZone

/-! ## Constants and machine conversions -/

/-- System latency cycle, in microseconds (`#define CYCLE_TIME 1000000`). -/
def CYCLE_TIME : Int := 1000000

/-- Zone counter cycle, in microseconds (`#define ZONE_CYCLE_TIME 2000000`). -/
def ZONE_CYCLE_TIME : Int := 2000000

/-- Minimum gap between two delay re-evaluations (`#define ZONE_ZFS_100MS 100000`). -/
def ZONE_ZFS_100MS : Int := 100000

/-- Conversion of an integer value to `uint16_t`. -/
def to_uint16 (x : Int) : Nat := (x % 65536).toNat

/-- Conversion of an integer value to `uint_t` (32 bits). -/
def to_uint_t (x : Int) : Int := x % 4294967296

/-- Conversion of an integer value to `int` (32 bits, two's complement): the value
itself when it lies in `[-2^31, 2^31)`, otherwise the value reduced modulo 2^32
into that range. -/
def to_int (x : Int) : Int := (x + 2147483648) % 4294967296 - 2147483648

/-! ## Data model -/

/-- Modelled from the spec: `sys_zio_cntr_t` is declared in `sys/zone.h`, which is
not part of the sources at hand.  Section 3 of the specification lists its three
fields; `zfs_zone.c` reads and writes exactly these. -/
structure sys_zio_cntr_t where
  cycle_start : Int
  cycle_cnt : Int
  zone_avg_cnt : Int
  deriving DecidableEq, Repr

/-- The latency aggregator `sys_lat_cycle_t` of `zfs_zone.c`. -/
structure sys_lat_cycle_t where
  cycle_start : Int
  cycle_cnt : Int
  cycle_lat : Int
  sys_avg_lat : Int
  deriving DecidableEq, Repr

/-- The per-walk statistics `zoneio_stats_t` of `zfs_zone.c`. -/
structure zoneio_stats_t where
  zi_now : Int
  zi_avgrlat : Int
  zi_avgwlat : Int
  zi_totutil : Nat
  zi_avgutil : Nat
  zi_active : Int
  deriving DecidableEq, Repr

/-- Modelled from the spec: `zone_t` is declared in `sys/zone.h`, which is not part
of the sources at hand.  These are the fields of a zone that `zfs_zone.c` touches
(section 3 of the specification, "Tenant state"): the identifier, the three
decaying counters, the utilization, the delay and the observability totals. -/
structure zone_t where
  zone_id : Int
  rd_ops : sys_zio_cntr_t
  wr_ops : sys_zio_cntr_t
  lwr_ops : sys_zio_cntr_t
  zone_io_util : Nat
  zone_io_delay : Nat
  zone_io_logwrite_ops : Nat
  zone_io_logwrite_bytes : Nat
  zone_io_logread_ops : Nat
  zone_io_logread_bytes : Nat
  zone_io_phyread_ops : Nat
  zone_io_phyread_bytes : Nat
  zone_io_phywrite_ops : Nat
  zone_io_phywrite_bytes : Nat
  deriving DecidableEq, Repr

/-- The file-scope variables of `zfs_zone.c`: the three tunables, the time of the
last re-evaluation and the two latency aggregators. -/
structure zfs_zone_globals where
  zfs_zone_delay_enable : Bool
  zfs_zone_delay_step : Nat
  zfs_zone_delay_ceiling : Nat
  zfs_zone_last_checked : Int
  rd_lat : sys_lat_cycle_t
  wr_lat : sys_lat_cycle_t
  deriving DecidableEq, Repr

/-! ## The delay controller -/

/-- The callback `zfs_zone_wait_adjust_delay_cb`.  The local `delay` is a
`uint16_t`; the arithmetic on it is done in `int` after the usual promotions. -/
def zfs_zone_wait_adjust_delay_cb (g : zfs_zone_globals) (sp : zoneio_stats_t)
    (zonep : zone_t) : zone_t :=
  let delay : Int := to_uint16 zonep.zone_io_delay
  let step : Int := g.zfs_zone_delay_step
  let ceiling : Int := g.zfs_zone_delay_ceiling
  let delay : Int :=
    if zonep.zone_io_util > sp.zi_avgutil ∧ delay < ceiling ∧ sp.zi_active > 1 then
      (if delay + step < ceiling then delay + step else ceiling)
    else if zonep.zone_io_util < sp.zi_avgutil ∨ sp.zi_active ≤ 1 then
      (if delay - step > 0 then delay - step else 0)
    else delay
  { zonep with zone_io_delay := to_uint16 delay }

/-- What one re-evaluation hands to the delay callback of a given zone: the
utilization stored by the first pass, the statistics of that pass and the value
of the step tunable at that time. -/
structure reeval_input where
  io_util : Nat
  stats : zoneio_stats_t
  delay_step : Nat
  deriving DecidableEq, Repr

/-- The delay callback run over a sequence of re-evaluations on one zone, the
ceiling being the one of `g` throughout. -/
def delay_after (g : zfs_zone_globals) (z : zone_t) : List reeval_input → zone_t
  | [] => z
  | r :: rs =>
    delay_after g
      (zfs_zone_wait_adjust_delay_cb { g with zfs_zone_delay_step := r.delay_step } r.stats
        { z with zone_io_util := r.io_util }) rs

/-- The delay controller in the words of section 4.4 of the specification:
increase to `min(d + step, ceiling)`, decrease to `max(d - step, 0)`, or keep `d`. -/
def spec_delay_controller (io_util avg_util : Nat) (active : Int) (d step ceiling : Nat) : Int :=
  if io_util > avg_util ∧ d < ceiling ∧ active > 1 then min ((d : Int) + step) ceiling
  else if io_util < avg_util ∨ active ≤ 1 then max ((d : Int) - step) 0
  else d

/-! ## The decaying zone counter -/

/-- Halving `n` times in a row, each time with C integer division. -/
def halve_times : Nat → Int → Int
  | 0, v => v
  | n + 1, v => halve_times n (v.tdiv 2)

/-- The loop `for (i = 1; i < gen_cnt; i++) v = v / 2;` that both roll-forward
functions run: its body is executed for `i = 1, ..., gen_cnt - 1`. -/
def decay_generations (gen_cnt : Int) (v : Int) : Int :=
  halve_times (gen_cnt - 1).toNat v

/-- The function `compute_historical_zone_cnt`: the returned pair is the C return
value and the counter `*cp` on return. -/
def compute_historical_zone_cnt (now : Int) (cp : sys_zio_cntr_t) : Int × sys_zio_cntr_t :=
  let delta := now - cp.cycle_start
  if delta < ZONE_CYCLE_TIME then (delta, cp)
  else
    let gen_cnt := delta.tdiv ZONE_CYCLE_TIME
    let zone_avg_cnt :=
      if gen_cnt > 5 then 0
      else
        decay_generations gen_cnt
          (if cp.cycle_cnt > 1 then cp.cycle_cnt
           else cp.cycle_cnt + cp.zone_avg_cnt.tdiv 2)
    (0, { cycle_start := now, cycle_cnt := 0, zone_avg_cnt := zone_avg_cnt })

/-- Modelled from the spec: the enumeration `zfs_zone_iop_type_t` is declared in
`sys/zfs_zone.h`, which is not part of the sources at hand.  Section 6 of the
specification gives its three values, the ones `zfs_zone.c` switches on. -/
inductive zfs_zone_iop_type_t where
  | ZFS_ZONE_IOP_READ
  | ZFS_ZONE_IOP_WRITE
  | ZFS_ZONE_IOP_LOGICAL_WRITE
  deriving DecidableEq, Repr

/-- The function `add_zone_iop`: roll the counter of the operation type forward
and count the operation in its current cycle. -/
def add_zone_iop (zonep : zone_t) (now : Int) (op : zfs_zone_iop_type_t) : zone_t :=
  match op with
  | .ZFS_ZONE_IOP_READ =>
    let cp := (compute_historical_zone_cnt now zonep.rd_ops).2
    { zonep with rd_ops := { cp with cycle_cnt := cp.cycle_cnt + 1 } }
  | .ZFS_ZONE_IOP_WRITE =>
    let cp := (compute_historical_zone_cnt now zonep.wr_ops).2
    { zonep with wr_ops := { cp with cycle_cnt := cp.cycle_cnt + 1 } }
  | .ZFS_ZONE_IOP_LOGICAL_WRITE =>
    let cp := (compute_historical_zone_cnt now zonep.lwr_ops).2
    { zonep with lwr_ops := { cp with cycle_cnt := cp.cycle_cnt + 1 } }

/-- The counter of a zone that belongs to an operation type. -/
def zone_cntr (zonep : zone_t) : zfs_zone_iop_type_t → sys_zio_cntr_t
  | .ZFS_ZONE_IOP_READ => zonep.rd_ops
  | .ZFS_ZONE_IOP_WRITE => zonep.wr_ops
  | .ZFS_ZONE_IOP_LOGICAL_WRITE => zonep.lwr_ops

/-- The function `calc_zone_cnt`: the estimate, a `uint_t`, and the counter on
return. -/
def calc_zone_cnt (now : Int) (cp : sys_zio_cntr_t) : Int × sys_zio_cntr_t :=
  let r := compute_historical_zone_cnt now cp
  let delta := r.1
  let cp := r.2
  let cnt : Int :=
    if delta = 0 then cp.zone_avg_cnt
    else if delta < ZONE_CYCLE_TIME.tdiv 2 then cp.cycle_cnt + cp.zone_avg_cnt.tdiv 2
    else cp.cycle_cnt
  (to_uint_t cnt, cp)

/-- The roll-forward of section 4.1 of the specification, in closed form: the
`generations - 1` further halvings are one division by `2 ^ (generations - 1)`. -/
def spec_roll_forward (now : Int) (c : sys_zio_cntr_t) : Int × sys_zio_cntr_t :=
  let delta := now - c.cycle_start
  if delta < 2000000 then (delta, c)
  else
    let g := delta.tdiv 2000000
    let base := if c.cycle_cnt > 1 then c.cycle_cnt else c.cycle_cnt + c.zone_avg_cnt.tdiv 2
    (0, { cycle_start := now, cycle_cnt := 0,
          zone_avg_cnt := if g > 5 then 0 else base.tdiv (2 ^ (g - 1).toNat) })

/-- The history that a roll-forward over `g` generations leaves behind. -/
def rolled_avg (g : Int) (c : sys_zio_cntr_t) : Int :=
  if g > 5 then 0
  else (if c.cycle_cnt > 1 then c.cycle_cnt else c.cycle_cnt + c.zone_avg_cnt.tdiv 2).tdiv
    (2 ^ (g - 1).toNat)

/-! ## The decaying latency average -/

/-- The divisor of the roll-forward average in `compute_new_sys_avg`. -/
def roll_divisor (cp : sys_lat_cycle_t) : Int := 1 + cp.cycle_cnt

/-- The divisor of the weighted average in `calc_avg_lat`. -/
def weighted_divisor (cp : sys_lat_cycle_t) : Int := 1 + cp.cycle_cnt * 8

/-- The function `compute_new_sys_avg`: the C return value (0 or 1) and the
aggregator `*cp` on return. -/
def compute_new_sys_avg (now : Int) (cp : sys_lat_cycle_t) : Int × sys_lat_cycle_t :=
  let delta := now - cp.cycle_start
  if delta < CYCLE_TIME then (0, cp)
  else
    let gen_cnt := delta.tdiv CYCLE_TIME
    let sys_avg_lat :=
      if gen_cnt > 5 then 0
      else decay_generations gen_cnt ((cp.sys_avg_lat + cp.cycle_lat).tdiv (roll_divisor cp))
    (1, { cycle_start := now, cycle_cnt := 0, cycle_lat := 0, sys_avg_lat := sys_avg_lat })

/-- The function `calc_avg_lat`: the average, a `uint_t`, and the aggregator on
return. -/
def calc_avg_lat (now : Int) (cp : sys_lat_cycle_t) : Int × sys_lat_cycle_t :=
  let r := compute_new_sys_avg now cp
  let cp := r.2
  if r.1 ≠ 0 then (to_uint_t cp.sys_avg_lat, cp)
  else (to_uint_t ((cp.sys_avg_lat + cp.cycle_lat * 8).tdiv (weighted_divisor cp)), cp)

/-- The function `get_sys_avg_lat`: the pair `(*rlat, *wlat)` and the file-scope
variables on return. -/
def get_sys_avg_lat (now : Int) (g : zfs_zone_globals) : (Int × Int) × zfs_zone_globals :=
  let r := calc_avg_lat now g.rd_lat
  let w := calc_avg_lat now g.wr_lat
  let rlat := if r.1 = 0 then 1000 else r.1
  let wlat := if w.1 = 0 then 10 else w.1
  ((rlat, wlat), { g with rd_lat := r.2, wr_lat := w.2 })

/-- The latency average of section 4.2 of the specification, in closed form, as
an integer: the value and the aggregator afterwards. -/
def spec_average (now : Int) (a : sys_lat_cycle_t) : Int × sys_lat_cycle_t :=
  let delta := now - a.cycle_start
  if delta < 1000000 then
    ((a.sys_avg_lat + 8 * a.cycle_lat).tdiv (1 + 8 * a.cycle_cnt), a)
  else
    let g := delta.tdiv 1000000
    let avg :=
      if g > 5 then 0
      else ((a.sys_avg_lat + a.cycle_lat).tdiv (1 + a.cycle_cnt)).tdiv (2 ^ (g - 1).toNat)
    (avg, { cycle_start := now, cycle_cnt := 0, cycle_lat := 0, sys_avg_lat := avg })

/-! ## The utilization pass -/

/-- Modelled from the spec: the identifier `GLOBAL_ZONEID` of the global zone is
declared in `sys/zone.h`, which is not part of the sources at hand; section 6 of
the specification gives its value, 0. -/
def GLOBAL_ZONEID : Int := 0

/-- Multiplication of two `uint_t` values, in `uint_t`. -/
def uint_mul (a b : Int) : Int := to_uint_t (a * b)

/-- Addition of two `uint_t` values, in `uint_t`. -/
def uint_add (a b : Int) : Int := to_uint_t (a + b)

/-- Addition into a 64-bit unsigned variable (`+=` on a `uint64_t`, and
`atomic_add_64`). -/
def add_64 (x n : Nat) : Nat := (x + n) % 18446744073709551616

/-- The function `get_zone_io_cnt`: the C return value, the triple
`(*rops, *wops, *lwops)` and the zone on return.  The returned `int` is the
bitwise disjunction of the three estimates and is only ever tested against 0; it
is carried by the unsigned value of the disjunction. -/
def get_zone_io_cnt (now : Int) (zonep : zone_t) : Int × (Int × Int × Int) × zone_t :=
  let r := calc_zone_cnt now zonep.rd_ops
  let w := calc_zone_cnt now zonep.wr_ops
  let l := calc_zone_cnt now zonep.lwr_ops
  (((r.1.toNat ||| w.1.toNat ||| l.1.toNat : Nat) : Int), (r.1, w.1, l.1),
    { zonep with rd_ops := r.2, wr_ops := w.2, lwr_ops := l.2 })

/-- The three estimates `(rops, wops, lwops)` that `get_zone_io_cnt` computes for
a zone at time `now`. -/
def zone_estimates (now : Int) (zonep : zone_t) : Int × Int × Int :=
  (get_zone_io_cnt now zonep).2.1

/-- The utilization of section 4.3 of the specification, as a mathematical
integer: `1000 * (r_ops * avg_r_lat + w_ops * avg_w_lat + lw_ops * avg_w_lat)`. -/
def spec_util (rops wops lwops rlat wlat : Int) : Int :=
  1000 * (rops * rlat + wops * wlat + lwops * wlat)

/-- The callback `zfs_zone_wait_adjust_calculate_cb`: the C return value, the zone
and the statistics on return.  Every operand of the utilization is a `uint_t`, so
the sum of products and its scaling by 1000 are computed in `uint_t`; the result is
stored in `zone_io_util`, a field of the zone whose declaration is in the missing
`sys/zone.h`. -/
def zfs_zone_wait_adjust_calculate_cb (zonep : zone_t) (sp : zoneio_stats_t) :
    Int × zone_t × zoneio_stats_t :=
  if zonep.zone_id = GLOBAL_ZONEID then (0, { zonep with zone_io_util := 0 }, sp)
  else
    let r := get_zone_io_cnt sp.zi_now zonep
    if r.1 = 0 then (0, { r.2.2 with zone_io_util := 0 }, sp)
    else
      let rops := r.2.1.1
      let wops := r.2.1.2.1
      let lwops := r.2.1.2.2
      let util :=
        uint_mul
          (uint_add (uint_add (uint_mul rops sp.zi_avgrlat) (uint_mul wops sp.zi_avgwlat))
            (uint_mul lwops sp.zi_avgwlat))
          1000
      let zonep : zone_t := { r.2.2 with zone_io_util := util.toNat }
      let sp : zoneio_stats_t :=
        { sp with zi_totutil := add_64 sp.zi_totutil zonep.zone_io_util }
      let sp : zoneio_stats_t :=
        if zonep.zone_io_util > 0 then { sp with zi_active := sp.zi_active + 1 } else sp
      (0, zonep, sp)

/-- Modelled from the spec: `zone_walk` belongs to the zone registry, which is not
part of the sources at hand.  Section 6 of the specification: invoke the callback
for each live zone, and abort the enumeration on a non-zero return, which is then
the result of the walk. -/
def zone_walk (cb : zone_t → zoneio_stats_t → Int × zone_t × zoneio_stats_t) :
    List zone_t → zoneio_stats_t → Int × List zone_t × zoneio_stats_t
  | [], sp => (0, [], sp)
  | z :: zs, sp =>
    let r := cb z sp
    if r.1 ≠ 0 then (r.1, r.2.1 :: zs, r.2.2)
    else
      let w := zone_walk cb zs r.2.2
      (w.1, r.2.1 :: w.2.1, w.2.2)

/-- The delay callback in the shape `zone_walk` expects: it returns 0 and leaves
the statistics as they are. -/
def delay_cb_walk (g : zfs_zone_globals) (zonep : zone_t) (sp : zoneio_stats_t) :
    Int × zone_t × zoneio_stats_t :=
  (0, zfs_zone_wait_adjust_delay_cb g sp zonep, sp)

/-- The function `zfs_zone_wait_adjust` over the list of live zones: the local
`stats` at the end, the file-scope variables and the zones on return. -/
def zfs_zone_wait_adjust (now : Int) (g : zfs_zone_globals) (zones : List zone_t) :
    zoneio_stats_t × zfs_zone_globals × List zone_t :=
  let stats : zoneio_stats_t :=
    { zi_now := 0, zi_avgrlat := 0, zi_avgwlat := 0, zi_totutil := 0, zi_avgutil := 0,
      zi_active := 0 }
  let stats : zoneio_stats_t := { stats with zi_now := now }
  let l := get_sys_avg_lat now g
  let stats : zoneio_stats_t := { stats with zi_avgrlat := l.1.1, zi_avgwlat := l.1.2 }
  let g := l.2
  let w := zone_walk zfs_zone_wait_adjust_calculate_cb zones stats
  if w.1 ≠ 0 then (w.2.2, g, w.2.1)
  else
    let stats : zoneio_stats_t := w.2.2
    let stats : zoneio_stats_t :=
      if stats.zi_active > 0 then
        { stats with zi_avgutil := stats.zi_totutil / stats.zi_active.toNat }
      else stats
    let w2 := zone_walk (delay_cb_walk g) w.2.1 stats
    (w2.2.2, g, w2.2.1)

/-- The statistics that `zfs_zone_wait_adjust` hands to its first walk: zeroed,
then the time and the two system latencies. -/
def first_pass_stats (now : Int) (g : zfs_zone_globals) : zoneio_stats_t :=
  { zi_now := now, zi_avgrlat := (get_sys_avg_lat now g).1.1,
    zi_avgwlat := (get_sys_avg_lat now g).1.2, zi_totutil := 0, zi_avgutil := 0,
    zi_active := 0 }

/-- Re-evaluations in a row, at the given times. -/
def wait_adjust_seq : List Int → zfs_zone_globals → List zone_t → zfs_zone_globals × List zone_t
  | [], g, zones => (g, zones)
  | now :: ts, g, zones =>
    let r := zfs_zone_wait_adjust now g zones
    wait_adjust_seq ts r.2.1 r.2.2

/-! ## The entry points -/

/-- The function `add_sys_iop`: only reads and writes have a latency aggregator;
the `switch` has no case for a logical write.  The parameter is `int lat`: the
`hrtime_t` latency that `add_iop` passes is converted to `int` on entry. -/
def add_sys_iop (g : zfs_zone_globals) (now : Int) (op : zfs_zone_iop_type_t) (lat : Int) :
    zfs_zone_globals :=
  let lat : Int := to_int lat
  match op with
  | .ZFS_ZONE_IOP_READ =>
    let cp := (compute_new_sys_avg now g.rd_lat).2
    { g with rd_lat := { cp with cycle_cnt := cp.cycle_cnt + 1, cycle_lat := cp.cycle_lat + lat } }
  | .ZFS_ZONE_IOP_WRITE =>
    let cp := (compute_new_sys_avg now g.wr_lat).2
    { g with wr_lat := { cp with cycle_cnt := cp.cycle_cnt + 1, cycle_lat := cp.cycle_lat + lat } }
  | .ZFS_ZONE_IOP_LOGICAL_WRITE => g

/-- The function `add_iop`: the zone and the file-scope variables on return. -/
def add_iop (g : zfs_zone_globals) (zonep : zone_t) (now : Int) (op : zfs_zone_iop_type_t)
    (lat : Int) : zone_t × zfs_zone_globals :=
  (add_zone_iop zonep now op, add_sys_iop g now op lat)

/-- The state the entry points work on: the file-scope variables and the live
zones of the registry. -/
structure throttle_state where
  globals : zfs_zone_globals
  zones : List zone_t
  deriving DecidableEq, Repr

/-- Modelled from the spec: `zone_find_by_id` belongs to the zone registry, which
is not part of the sources at hand.  Section 6 of the specification: the lookup
by identifier gives the zone or nothing. -/
def zone_find_by_id (zones : List zone_t) (id : Int) : Option zone_t :=
  zones.find? (fun z => decide (z.zone_id = id))

/-- Writing through the pointer that the registry handed out: the zone found
under the identifier is replaced by its new value. -/
def zone_store (id : Int) (znew : zone_t) : List zone_t → List zone_t
  | [] => []
  | z :: zs => if z.zone_id = id then znew :: zs else z :: zone_store id znew zs

/-- Modelled from the spec: `zio_t` is declared in `sys/zio.h`, which is not part
of the sources at hand; the type of an I/O is read or write.  Section 6 of the
specification lists what the throttle consumes of an I/O. -/
inductive zio_type_t where
  | ZIO_TYPE_READ
  | ZIO_TYPE_WRITE
  deriving DecidableEq, Repr

/-- Modelled from the spec: the fields of `zio_t` (declared in the missing
`sys/zio.h`) that `zfs_zone.c` touches. -/
structure zio_t where
  io_zoneid : Int
  io_start : Int
  io_type : zio_type_t
  io_size : Nat
  deriving DecidableEq, Repr

/-- The first part of `zfs_zone_io_throttle`, up to the test of
`zfs_zone_delay_enable`: a logical write is fed to the counters of the calling
zone `zonep` and counted in its logical-write totals; any other operation is
counted in its logical-read totals. -/
def logical_op_account (s : throttle_state) (zonep : zone_t) (now : Int)
    (type : zfs_zone_iop_type_t) (size : Nat) : throttle_state :=
  if type = .ZFS_ZONE_IOP_LOGICAL_WRITE then
    let r := add_iop s.globals zonep now type 0
    let zonep : zone_t :=
      { r.1 with
        zone_io_logwrite_ops := add_64 r.1.zone_io_logwrite_ops 1,
        zone_io_logwrite_bytes := add_64 r.1.zone_io_logwrite_bytes size }
    { globals := r.2, zones := zone_store zonep.zone_id zonep s.zones }
  else
    let zonep : zone_t :=
      { zonep with
        zone_io_logread_ops := add_64 zonep.zone_io_logread_ops 1,
        zone_io_logread_bytes := add_64 zonep.zone_io_logread_bytes size }
    { s with zones := zone_store zonep.zone_id zonep s.zones }

/-- The function `zfs_zone_io_throttle`, called by the zone of identifier
`curzone` at time `now` (the value of `GET_USEC_TIME`): the state on return and
the number of microseconds handed to `drv_usecwait`, 0 when it is not called.
The caller is a live zone; for an identifier that the registry does not hold the
state is returned as it is. -/
def zfs_zone_io_throttle (s : throttle_state) (curzone : Int) (now : Int)
    (type : zfs_zone_iop_type_t) (size : Nat) : throttle_state × Nat :=
  match zone_find_by_id s.zones curzone with
  | none => (s, 0)
  | some zonep =>
    let s := logical_op_account s zonep now type size
    if s.globals.zfs_zone_delay_enable = false then (s, 0)
    else
      let s : throttle_state :=
        if now - s.globals.zfs_zone_last_checked > ZONE_ZFS_100MS then
          let r := zfs_zone_wait_adjust now { s.globals with zfs_zone_last_checked := now } s.zones
          { globals := r.2.1, zones := r.2.2 }
        else s
      match zone_find_by_id s.zones curzone with
      | none => (s, 0)
      | some zonep =>
        let wait := to_uint16 zonep.zone_io_delay
        if wait > 0 then (s, wait) else (s, 0)

/-- The function `zfs_zone_zio_done`, run at time `now` (the value of
`GET_USEC_TIME`) for the completed I/O `zp`. -/
def zfs_zone_zio_done (s : throttle_state) (zp : zio_t) (now : Int) : throttle_state :=
  if s.globals.zfs_zone_delay_enable = false then s
  else
    match zone_find_by_id s.zones zp.io_zoneid with
    | none => s
    | some zonep =>
      let diff := now - zp.io_start
      let r :=
        add_iop s.globals zonep now
          (if zp.io_type = .ZIO_TYPE_READ then .ZFS_ZONE_IOP_READ else .ZFS_ZONE_IOP_WRITE) diff
      let zonep : zone_t :=
        if zp.io_type = .ZIO_TYPE_READ then
          { r.1 with
            zone_io_phyread_ops := add_64 r.1.zone_io_phyread_ops 1,
            zone_io_phyread_bytes := add_64 r.1.zone_io_phyread_bytes zp.io_size }
        else
          { r.1 with
            zone_io_phywrite_ops := add_64 r.1.zone_io_phywrite_ops 1,
            zone_io_phywrite_bytes := add_64 r.1.zone_io_phywrite_bytes zp.io_size }
      { globals := r.2, zones := zone_store zp.io_zoneid zonep s.zones }

/-! ## Initial states -/

/-- The file-scope variables as the source initialises them: throttle enabled,
step 5, ceiling 100, no re-evaluation yet, zeroed latency aggregators. -/
def initial_globals : zfs_zone_globals :=
  { zfs_zone_delay_enable := true, zfs_zone_delay_step := 5, zfs_zone_delay_ceiling := 100,
    zfs_zone_last_checked := 0, rd_lat := ⟨0, 0, 0, 0⟩, wr_lat := ⟨0, 0, 0, 0⟩ }

/-- A zone right after its creation: every counter and field is zero. -/
def new_zone (id : Int) : zone_t :=
  { zone_id := id, rd_ops := ⟨0, 0, 0⟩, wr_ops := ⟨0, 0, 0⟩, lwr_ops := ⟨0, 0, 0⟩,
    zone_io_util := 0, zone_io_delay := 0,
    zone_io_logwrite_ops := 0, zone_io_logwrite_bytes := 0,
    zone_io_logread_ops := 0, zone_io_logread_bytes := 0,
    zone_io_phyread_ops := 0, zone_io_phyread_bytes := 0,
    zone_io_phywrite_ops := 0, zone_io_phywrite_bytes := 0 }

/-- Statistics of a walk that found `active` active zones of average utilization
`avgutil`. -/
def stats_of (avgutil : Nat) (active : Int) : zoneio_stats_t :=
  { zi_now := 0, zi_avgrlat := 1000, zi_avgwlat := 10, zi_totutil := 0,
    zi_avgutil := avgutil, zi_active := active }

/-! # Theorems -/

/-! ## Arithmetic of the halving loop -/

theorem halve_times_natCast (n m : Nat) :
    halve_times n (m : Int) = ((m / 2 ^ n : Nat) : Int) := by
  induction n generalizing m with
  | zero => simp [halve_times]
  | succ n ih =>
    have h : (m : Int).tdiv 2 = ((m / 2 : Nat) : Int) := (Int.ofNat_tdiv m 2).symm
    rw [halve_times, h, ih, Nat.div_div_eq_div_mul, pow_succ, Nat.mul_comm]

theorem halve_times_neg (n : Nat) (v : Int) : halve_times n (-v) = -halve_times n v := by
  induction n generalizing v with
  | zero => simp [halve_times]
  | succ n ih => rw [halve_times, halve_times, Int.neg_tdiv, ih]

theorem tdiv_two_pow_natCast (n m : Nat) :
    (m : Int).tdiv (2 ^ n) = ((m / 2 ^ n : Nat) : Int) := by
  have h := Int.ofNat_tdiv m (2 ^ n)
  rw [h]
  push_cast
  rfl

/-- The halving loop is one truncating division by a power of two, whatever the
sign of the value. -/
theorem halve_times_eq (n : Nat) (v : Int) : halve_times n v = v.tdiv (2 ^ n) := by
  rcases Int.le_total 0 v with hv | hv
  · obtain ⟨m, rfl⟩ := Int.eq_ofNat_of_zero_le hv
    rw [halve_times_natCast, tdiv_two_pow_natCast]
  · obtain ⟨m, hm⟩ := Int.eq_ofNat_of_zero_le (show 0 ≤ -v by omega)
    have hv2 : v = -(m : Int) := by omega
    rw [hv2, halve_times_neg, Int.neg_tdiv, halve_times_natCast, tdiv_two_pow_natCast]

theorem tdiv_two_eq (x : Int) (h : 0 ≤ x) : x.tdiv 2 = x / 2 :=
  Int.tdiv_eq_ediv h (by decide)

theorem tdiv_two_pow_bounds (x : Int) (n : Nat) (h : 0 ≤ x) :
    0 ≤ x.tdiv (2 ^ n) ∧ x.tdiv (2 ^ n) ≤ x := by
  have hp : (0 : Int) ≤ 2 ^ n := by positivity
  rw [Int.tdiv_eq_ediv h hp]
  exact ⟨Int.ediv_nonneg h hp, Int.ediv_le_self _ h⟩

theorem tdiv_two_pow_mono (x y : Int) (n : Nat) (hx : 0 ≤ x) (hxy : x ≤ y) :
    x.tdiv (2 ^ n) ≤ y.tdiv (2 ^ n) := by
  have hp : (0 : Int) < 2 ^ n := by positivity
  rw [Int.tdiv_eq_ediv hx (Int.le_of_lt hp),
    Int.tdiv_eq_ediv (Int.le_trans hx hxy) (Int.le_of_lt hp)]
  exact Int.ediv_le_ediv hp hxy

theorem to_uint_t_of_range (x : Int) (h0 : 0 ≤ x) (h1 : x < 4294967296) : to_uint_t x = x := by
  unfold to_uint_t
  omega

theorem to_uint_t_nonneg (x : Int) : 0 ≤ to_uint_t x := by
  unfold to_uint_t
  omega

/-! ## The delay controller -/

/-- One run of the delay callback keeps the delay under any bound that is at
least the ceiling and that held before. -/
theorem delay_cb_le (g : zfs_zone_globals) (sp : zoneio_stats_t) (z : zone_t) (b : Nat)
    (hc : g.zfs_zone_delay_ceiling ≤ b) (hd : z.zone_io_delay ≤ b) :
    (zfs_zone_wait_adjust_delay_cb g sp z).zone_io_delay ≤ b := by
  simp only [zfs_zone_wait_adjust_delay_cb, to_uint16]
  split_ifs <;> omega

/-- A delay above the ceiling is not increased by the callback. -/
theorem delay_cb_le_old (g : zfs_zone_globals) (sp : zoneio_stats_t) (z : zone_t)
    (hd : g.zfs_zone_delay_ceiling < z.zone_io_delay) :
    (zfs_zone_wait_adjust_delay_cb g sp z).zone_io_delay ≤ z.zone_io_delay := by
  simp only [zfs_zone_wait_adjust_delay_cb, to_uint16]
  split_ifs <;> omega

/-- Any sequence of re-evaluations keeps the delay under the ceiling. -/
theorem delay_after_le (g : zfs_zone_globals) (rs : List reeval_input) (z : zone_t)
    (hd : z.zone_io_delay ≤ g.zfs_zone_delay_ceiling) :
    (delay_after g z rs).zone_io_delay ≤ g.zfs_zone_delay_ceiling := by
  induction rs generalizing z with
  | nil => exact hd
  | cons r rs ih =>
    rw [delay_after]
    exact ih _ (delay_cb_le _ _ _ _ (Nat.le_refl _) hd)

/-- C1: with the ceiling held fixed the delay callback preserves the range of the
delay.  For every utilization, average, count of active zones and step: a delay
that is at most the ceiling before the callback is between 0 and the ceiling
after it; starting from a delay of 0, every sequence of re-evaluations keeps the
delay between 0 and the ceiling; and a delay that is above the ceiling is not
increased. -/
theorem delay_range_preserved :
    (∀ (g : zfs_zone_globals) (sp : zoneio_stats_t) (z : zone_t),
      z.zone_io_delay ≤ g.zfs_zone_delay_ceiling →
        0 ≤ (zfs_zone_wait_adjust_delay_cb g sp z).zone_io_delay ∧
        (zfs_zone_wait_adjust_delay_cb g sp z).zone_io_delay ≤ g.zfs_zone_delay_ceiling) ∧
    (∀ (g : zfs_zone_globals) (z : zone_t) (rs : List reeval_input),
      z.zone_io_delay = 0 →
        0 ≤ (delay_after g z rs).zone_io_delay ∧
        (delay_after g z rs).zone_io_delay ≤ g.zfs_zone_delay_ceiling) ∧
    (∀ (g : zfs_zone_globals) (sp : zoneio_stats_t) (z : zone_t),
      g.zfs_zone_delay_ceiling < z.zone_io_delay →
        (zfs_zone_wait_adjust_delay_cb g sp z).zone_io_delay ≤ z.zone_io_delay) := by
  refine ⟨fun g sp z h => ⟨Nat.zero_le _, delay_cb_le g sp z _ (Nat.le_refl _) h⟩,
    fun g z rs h => ⟨Nat.zero_le _, delay_after_le g rs z (by omega)⟩,
    fun g sp z h => delay_cb_le_old g sp z h⟩

/-- A heavy zone at delay 98 under the default tunables: the callback stops at
the ceiling of 100. -/
theorem delay_range_preserved_witness :
    ({ new_zone 7 with zone_io_util := 9000, zone_io_delay := 98 } : zone_t).zone_io_delay
        ≤ initial_globals.zfs_zone_delay_ceiling ∧
      (zfs_zone_wait_adjust_delay_cb initial_globals (stats_of 5000 2)
        { new_zone 7 with zone_io_util := 9000, zone_io_delay := 98 }).zone_io_delay = 100 ∧
      (zfs_zone_wait_adjust_delay_cb initial_globals (stats_of 5000 2)
        { new_zone 7 with zone_io_util := 9000, zone_io_delay := 98 }).zone_io_delay
        ≤ initial_globals.zfs_zone_delay_ceiling :=
  ⟨by decide, by decide,
    (delay_range_preserved.1 initial_globals (stats_of 5000 2)
      { new_zone 7 with zone_io_util := 9000, zone_io_delay := 98 } (by decide)).2⟩

/-- C2: the delay callback is the controller of the specification.  With the old
delay `d`, the step and the ceiling 16-bit unsigned values, the new delay is
`min(d + step, ceiling)` when `io_util > avg_util`, `d < ceiling` and
`active > 1`; it is `max(d - step, 0)` when `io_util < avg_util` or
`active <= 1`; and it is `d` in every remaining case, in particular when
`io_util = avg_util` with `active >= 2` and when `io_util > avg_util` with
`active >= 2` and `d >= ceiling`.  No other field of the zone changes. -/
theorem delay_cb_is_spec_controller (g : zfs_zone_globals) (sp : zoneio_stats_t) (z : zone_t)
    (hd : z.zone_io_delay < 65536) (hs : g.zfs_zone_delay_step < 65536)
    (hc : g.zfs_zone_delay_ceiling < 65536) :
    zfs_zone_wait_adjust_delay_cb g sp z =
        { z with zone_io_delay :=
            (spec_delay_controller z.zone_io_util sp.zi_avgutil sp.zi_active z.zone_io_delay
              g.zfs_zone_delay_step g.zfs_zone_delay_ceiling).toNat } ∧
      ((zfs_zone_wait_adjust_delay_cb g sp z).zone_io_delay : Int) =
        spec_delay_controller z.zone_io_util sp.zi_avgutil sp.zi_active z.zone_io_delay
          g.zfs_zone_delay_step g.zfs_zone_delay_ceiling ∧
      (z.zone_io_util = sp.zi_avgutil → 2 ≤ sp.zi_active →
        (zfs_zone_wait_adjust_delay_cb g sp z).zone_io_delay = z.zone_io_delay) ∧
      (z.zone_io_util > sp.zi_avgutil → 2 ≤ sp.zi_active →
        g.zfs_zone_delay_ceiling ≤ z.zone_io_delay →
        (zfs_zone_wait_adjust_delay_cb g sp z).zone_io_delay = z.zone_io_delay) := by
  have key : ((zfs_zone_wait_adjust_delay_cb g sp z).zone_io_delay : Int) =
      spec_delay_controller z.zone_io_util sp.zi_avgutil sp.zi_active z.zone_io_delay
        g.zfs_zone_delay_step g.zfs_zone_delay_ceiling := by
    simp only [zfs_zone_wait_adjust_delay_cb, to_uint16, spec_delay_controller]
    split_ifs <;> omega
  refine ⟨?_, key, ?_, ?_⟩
  · rw [← key]
    rfl
  · intro h1 h2
    simp only [zfs_zone_wait_adjust_delay_cb, to_uint16]
    split_ifs <;> omega
  · intro h1 h2 h3
    simp only [zfs_zone_wait_adjust_delay_cb, to_uint16]
    split_ifs <;> omega

/-- The three branches of the controller on concrete zones under the default
tunables: 40 goes to 45 when heavy among two, to 35 when light, and stays 40 at
the average. -/
theorem delay_cb_is_spec_controller_witness :
    (zfs_zone_wait_adjust_delay_cb initial_globals (stats_of 5000 2)
        { new_zone 7 with zone_io_util := 9000, zone_io_delay := 40 }).zone_io_delay = 45 ∧
      (zfs_zone_wait_adjust_delay_cb initial_globals (stats_of 5000 2)
        { new_zone 7 with zone_io_util := 1000, zone_io_delay := 40 }).zone_io_delay = 35 ∧
      (zfs_zone_wait_adjust_delay_cb initial_globals (stats_of 5000 2)
        { new_zone 7 with zone_io_util := 5000, zone_io_delay := 40 }).zone_io_delay = 40 ∧
      zfs_zone_wait_adjust_delay_cb initial_globals (stats_of 5000 2)
          { new_zone 7 with zone_io_util := 9000, zone_io_delay := 40 } =
        { new_zone 7 with zone_io_util := 9000, zone_io_delay := 45 } :=
  ⟨by decide, by decide, by decide,
    (delay_cb_is_spec_controller initial_globals (stats_of 5000 2)
      { new_zone 7 with zone_io_util := 9000, zone_io_delay := 40 }
      (by decide) (by decide) (by decide)).1.trans (by decide)⟩

/-! ## The decaying zone counter -/

/-- The roll-forward of the source and the closed form of the specification are
the same function. -/
theorem compute_historical_zone_cnt_closed (now : Int) (c : sys_zio_cntr_t) :
    compute_historical_zone_cnt now c = spec_roll_forward now c := by
  simp only [compute_historical_zone_cnt, spec_roll_forward, decay_generations, halve_times_eq,
    ZONE_CYCLE_TIME]

/-- C3: `compute_historical_zone_cnt` implements the roll-forward of the
specification.  With `delta = now - cycle_start`: if `delta < 2000000` it returns
`delta` and leaves the counter unchanged; otherwise, with `g = delta / 2000000`,
it returns 0, sets `cycle_start = now` and `cycle_cnt = 0`, and sets
`zone_avg_cnt` to 0 if `g > 5` and otherwise to `base / 2 ^ (g - 1)`, where
`base` is `cycle_cnt` if `cycle_cnt > 1` and `cycle_cnt + zone_avg_cnt / 2`
otherwise.  This holds for every counter with non-negative `cycle_cnt` and
`zone_avg_cnt`. -/
theorem compute_historical_zone_cnt_refines_spec (now : Int) (c : sys_zio_cntr_t)
    (hcnt : 0 ≤ c.cycle_cnt) (havg : 0 ≤ c.zone_avg_cnt) :
    compute_historical_zone_cnt now c = spec_roll_forward now c ∧
      (now - c.cycle_start < 2000000 →
        compute_historical_zone_cnt now c = (now - c.cycle_start, c)) ∧
      (2000000 ≤ now - c.cycle_start →
        (compute_historical_zone_cnt now c).1 = 0 ∧
        (compute_historical_zone_cnt now c).2.cycle_start = now ∧
        (compute_historical_zone_cnt now c).2.cycle_cnt = 0 ∧
        0 ≤ (compute_historical_zone_cnt now c).2.zone_avg_cnt) := by
  refine ⟨compute_historical_zone_cnt_closed now c, ?_, ?_⟩
  · intro h
    simp [compute_historical_zone_cnt, ZONE_CYCLE_TIME, h]
  · intro h
    have hlt : ¬ now - c.cycle_start < 2000000 := by omega
    rw [compute_historical_zone_cnt_closed]
    simp only [spec_roll_forward, hlt, if_false, true_and]
    split_ifs
    · exact Int.le_refl 0
    · exact Int.tdiv_nonneg (by omega) (by positivity)
    · exact Int.tdiv_nonneg (Int.add_nonneg hcnt (Int.tdiv_nonneg havg (by decide)))
        (by positivity)

/-- Three generations after a cycle of 8 operations the history is 8 / 4 = 2. -/
theorem compute_historical_zone_cnt_refines_spec_witness :
    compute_historical_zone_cnt 6500000 ⟨0, 8, 3⟩ = (0, ⟨6500000, 0, 2⟩) ∧
      compute_historical_zone_cnt 6500000 ⟨0, 8, 3⟩ = spec_roll_forward 6500000 ⟨0, 8, 3⟩ :=
  ⟨by decide,
    (compute_historical_zone_cnt_refines_spec 6500000 ⟨0, 8, 3⟩ (by decide) (by decide)).1⟩

/-! ### The estimate in each regime -/

/-- An estimate that rolls the window returns the history that the roll leaves. -/
theorem calc_zone_cnt_rolled (now : Int) (c : sys_zio_cntr_t)
    (hd : 2000000 ≤ now - c.cycle_start) :
    calc_zone_cnt now c =
      (to_uint_t (rolled_avg ((now - c.cycle_start).tdiv 2000000) c),
        ⟨now, 0, rolled_avg ((now - c.cycle_start).tdiv 2000000) c⟩) := by
  have h : ¬ now - c.cycle_start < 2000000 := by omega
  simp [calc_zone_cnt, compute_historical_zone_cnt_closed, spec_roll_forward, h, rolled_avg]

/-- Early in the cycle, but after its first instant: current count plus half of
the history. -/
theorem calc_zone_cnt_early (now : Int) (c : sys_zio_cntr_t)
    (h0 : 0 < now - c.cycle_start) (h1 : now - c.cycle_start < 1000000) :
    calc_zone_cnt now c = (to_uint_t (c.cycle_cnt + c.zone_avg_cnt.tdiv 2), c) := by
  have h : now - c.cycle_start < 2000000 := by omega
  have h2 : now - c.cycle_start ≠ 0 := by omega
  have h3 : (2000000 : Int).tdiv 2 = 1000000 := by decide
  simp [calc_zone_cnt, compute_historical_zone_cnt, ZONE_CYCLE_TIME, h, h1, h2, h3]

/-- Late in the cycle: the current count alone. -/
theorem calc_zone_cnt_late (now : Int) (c : sys_zio_cntr_t)
    (h0 : 1000000 ≤ now - c.cycle_start) (h1 : now - c.cycle_start < 2000000) :
    calc_zone_cnt now c = (to_uint_t c.cycle_cnt, c) := by
  have h : ¬ now - c.cycle_start < 1000000 := by omega
  have h2 : now - c.cycle_start ≠ 0 := by omega
  have h3 : (2000000 : Int).tdiv 2 = 1000000 := by decide
  simp [calc_zone_cnt, compute_historical_zone_cnt, ZONE_CYCLE_TIME, h, h1, h2, h3]

/-- At the very instant the window opened the returned `delta` is 0, which
`calc_zone_cnt` takes for a roll: the estimate is the history alone. -/
theorem calc_zone_cnt_same_time (c : sys_zio_cntr_t) :
    calc_zone_cnt c.cycle_start c = (to_uint_t c.zone_avg_cnt, c) := by
  simp [calc_zone_cnt, compute_historical_zone_cnt, ZONE_CYCLE_TIME]

/-- Six generations or more after the window opened the estimate is 0 and the
counter is reset. -/
theorem calc_zone_cnt_six_generations (now : Int) (c : sys_zio_cntr_t)
    (h : 12000000 ≤ now - c.cycle_start) : calc_zone_cnt now c = (0, ⟨now, 0, 0⟩) := by
  have hd : ¬ now - c.cycle_start < 2000000 := by omega
  have hg : (now - c.cycle_start).tdiv 2000000 > 5 := by
    rw [Int.tdiv_eq_ediv (by omega) (by decide)]
    omega
  simp [calc_zone_cnt, compute_historical_zone_cnt, ZONE_CYCLE_TIME, hd, hg, to_uint_t]

theorem rolled_avg_bounds (g : Int) (c : sys_zio_cntr_t) (hc : 0 ≤ c.cycle_cnt)
    (ha : 0 ≤ c.zone_avg_cnt) :
    0 ≤ rolled_avg g c ∧
      rolled_avg g c ≤
        (if c.cycle_cnt > 1 then c.cycle_cnt else c.cycle_cnt + c.zone_avg_cnt / 2) := by
  unfold rolled_avg
  rw [tdiv_two_eq _ ha]
  have hb : 0 ≤ (if c.cycle_cnt > 1 then c.cycle_cnt else c.cycle_cnt + c.zone_avg_cnt / 2) := by
    split_ifs <;> omega
  have := tdiv_two_pow_bounds _ (g - 1).toNat hb
  split_ifs at * <;> omega

/-- The counter that `add_zone_iop` leaves for its operation type: rolled forward
and incremented. -/
theorem zone_cntr_add_zone_iop (z : zone_t) (t : Int) (op : zfs_zone_iop_type_t) :
    zone_cntr (add_zone_iop z t op) op =
      { (compute_historical_zone_cnt t (zone_cntr z op)).2 with
        cycle_cnt := (compute_historical_zone_cnt t (zone_cntr z op)).2.cycle_cnt + 1 } := by
  cases op <;> rfl

theorem compute_historical_cycle_start_le (t : Int) (c : sys_zio_cntr_t)
    (h : c.cycle_start ≤ t) : (compute_historical_zone_cnt t c).2.cycle_start ≤ t := by
  unfold compute_historical_zone_cnt
  by_cases hd : t - c.cycle_start < ZONE_CYCLE_TIME
  · simpa [hd] using h
  · simp [hd]

/-! ### Claims on the estimate -/

/-- C4, evaluated on the code: at `now = cycle_start` no roll is due, yet
`calc_zone_cnt` returns `zone_avg_cnt` alone, not `cycle_cnt + zone_avg_cnt / 2`,
and leaves the counter unchanged.  On the counter (1000, 3, 4) queried at 1000 it
returns 4 where the early rule gives 3 + 4 / 2 = 5; on a new zone whose first read
is recorded at 5000000, the estimate taken at 5000000 is 0 where the early rule
gives 1. -/
theorem calc_zone_cnt_at_cycle_start :
    (∀ c : sys_zio_cntr_t, calc_zone_cnt c.cycle_start c = (to_uint_t c.zone_avg_cnt, c)) ∧
      calc_zone_cnt 1000 ⟨1000, 3, 4⟩ = (4, ⟨1000, 3, 4⟩) ∧
      (3 : Int) + Int.tdiv 4 2 = 5 ∧
      zone_cntr (add_zone_iop (new_zone 7) 5000000 .ZFS_ZONE_IOP_READ) .ZFS_ZONE_IOP_READ =
        ⟨5000000, 1, 0⟩ ∧
      calc_zone_cnt 5000000 ⟨5000000, 1, 0⟩ = (0, ⟨5000000, 1, 0⟩) :=
  ⟨calc_zone_cnt_same_time, by decide, by decide, by decide, by decide⟩

/-- C5 fails as stated: a zone whose read counter holds 9999 operations records
one more read at t = 1000000 and is then idle; at now = 11000001, more than
5 * ZONE_CYCLE_TIME after the record, only 5 generations have elapsed, the history
is 10000 / 16 and the estimate is 625, not 0. -/
theorem idle_reset_counterexample :
    (zone_cntr { new_zone 7 with rd_ops := ⟨0, 9999, 0⟩ } .ZFS_ZONE_IOP_READ).cycle_start
        ≤ 1000000 ∧
      zone_cntr (add_zone_iop { new_zone 7 with rd_ops := ⟨0, 9999, 0⟩ } 1000000
        .ZFS_ZONE_IOP_READ) .ZFS_ZONE_IOP_READ = ⟨0, 10000, 0⟩ ∧
      (11000001 : Int) - 1000000 > 5 * ZONE_CYCLE_TIME ∧
      calc_zone_cnt 11000001 ⟨0, 10000, 0⟩ = (625, ⟨11000001, 0, 625⟩) := by
  decide

/-- C5, amended: for every counter whose last `add_zone_iop` happened at time `t`
(with `cycle_start <= t` before it) and every `now` with
`now - t >= 6 * ZONE_CYCLE_TIME = 12000000`, the next `calc_zone_cnt(now)`
returns 0. -/
theorem idle_reset_after_six_cycles (z : zone_t) (op : zfs_zone_iop_type_t) (t now : Int)
    (hs : (zone_cntr z op).cycle_start ≤ t) (hn : 6 * ZONE_CYCLE_TIME ≤ now - t) :
    (calc_zone_cnt now (zone_cntr (add_zone_iop z t op) op)).1 = 0 := by
  have h1 := compute_historical_cycle_start_le t (zone_cntr z op) hs
  rw [calc_zone_cnt_six_generations]
  rw [zone_cntr_add_zone_iop]
  simp only [ZONE_CYCLE_TIME] at hn
  show 12000000 ≤ now - (compute_historical_zone_cnt t (zone_cntr z op)).2.cycle_start
  omega

/-- The zone of the counterexample, queried 12 seconds after its last read. -/
theorem idle_reset_after_six_cycles_witness :
    (zone_cntr { new_zone 7 with rd_ops := ⟨0, 9999, 0⟩ } .ZFS_ZONE_IOP_READ).cycle_start
        ≤ 1000000 ∧
      6 * ZONE_CYCLE_TIME ≤ (13000000 : Int) - 1000000 ∧
      (calc_zone_cnt 13000000
        (zone_cntr (add_zone_iop { new_zone 7 with rd_ops := ⟨0, 9999, 0⟩ } 1000000
          .ZFS_ZONE_IOP_READ) .ZFS_ZONE_IOP_READ)).1 = 0 :=
  ⟨by decide, by decide,
    idle_reset_after_six_cycles { new_zone 7 with rd_ops := ⟨0, 9999, 0⟩ } .ZFS_ZONE_IOP_READ
      1000000 13000000 (by decide) (by decide)⟩

/-- C6: for every counter, whatever its `cycle_cnt` and `zone_avg_cnt`, and every
`now` with `now - cycle_start >= 6 * ZONE_CYCLE_TIME = 12000000`,
`calc_zone_cnt(now, c)` returns 0 and leaves `zone_avg_cnt = 0` and
`cycle_cnt = 0`, the window being reopened at `now`. -/
theorem decay_to_zero_after_six_generations (now : Int) (c : sys_zio_cntr_t)
    (h : 6 * ZONE_CYCLE_TIME ≤ now - c.cycle_start) :
    (calc_zone_cnt now c).1 = 0 ∧ (calc_zone_cnt now c).2.zone_avg_cnt = 0 ∧
      (calc_zone_cnt now c).2.cycle_cnt = 0 ∧ (calc_zone_cnt now c).2.cycle_start = now := by
  simp only [ZONE_CYCLE_TIME] at h
  rw [calc_zone_cnt_six_generations now c (by omega)]
  exact ⟨rfl, rfl, rfl, rfl⟩

/-- A counter that took 10000 operations in the second after 0 and is queried at
13000000, twelve seconds after the last of them, estimates 0. -/
theorem decay_to_zero_after_six_generations_witness :
    6 * ZONE_CYCLE_TIME ≤ (13000000 : Int) - (⟨0, 10000, 0⟩ : sys_zio_cntr_t).cycle_start ∧
      (calc_zone_cnt 13000000 ⟨0, 10000, 0⟩).1 = 0 ∧
      (calc_zone_cnt 13000000 ⟨0, 10000, 0⟩).2 = ⟨13000000, 0, 0⟩ :=
  ⟨by decide,
    (decay_to_zero_after_six_generations 13000000 ⟨0, 10000, 0⟩ (by decide)).1,
    by decide⟩

/-- C7 fails as stated: the counter (0, 0, 10) queried late in its cycle, at
now = 1500000, estimates `cycle_cnt` = 0 and is left unchanged; queried again one
cycle later, with no record in between, it rolls forward to 0 + 10 / 2 and
estimates 5. -/
theorem decay_counterexample :
    (0 : Int) ≤ (⟨0, 0, 10⟩ : sys_zio_cntr_t).cycle_cnt ∧
      (0 : Int) ≤ (⟨0, 0, 10⟩ : sys_zio_cntr_t).zone_avg_cnt ∧
      (⟨0, 0, 10⟩ : sys_zio_cntr_t).cycle_start ≤ 1500000 ∧
      (calc_zone_cnt 1500000 ⟨0, 0, 10⟩).1 = 0 ∧
      (calc_zone_cnt 1500000 ⟨0, 0, 10⟩).2 = ⟨0, 0, 10⟩ ∧
      (calc_zone_cnt (1500000 + 1 * ZONE_CYCLE_TIME) (calc_zone_cnt 1500000 ⟨0, 0, 10⟩).2).1
        = 5 := by
  decide

/-- C7, amended: for every counter whose fields are non-negative C `int` values,
every `now > cycle_start` and every `k >= 0`, if `calc_zone_cnt` is called at
`now` and then, with no `add_zone_iop` in between, at
`now + k * ZONE_CYCLE_TIME`, the second estimate is no greater than the first,
provided the first call is not a late-cycle estimate of a nearly idle counter:
`now - cycle_start < ZONE_CYCLE_TIME / 2`, or `now - cycle_start >=
ZONE_CYCLE_TIME`, or `cycle_cnt > 1`, or `zone_avg_cnt <= 1`. -/
theorem decay_monotone_amended (c : sys_zio_cntr_t) (now : Int) (k : Nat)
    (hc0 : 0 ≤ c.cycle_cnt) (hc1 : c.cycle_cnt < 2147483648)
    (ha0 : 0 ≤ c.zone_avg_cnt) (ha1 : c.zone_avg_cnt < 2147483648)
    (hnow : c.cycle_start < now)
    (hcase : now - c.cycle_start < ZONE_CYCLE_TIME / 2 ∨ ZONE_CYCLE_TIME ≤ now - c.cycle_start ∨
      1 < c.cycle_cnt ∨ c.zone_avg_cnt ≤ 1) :
    (calc_zone_cnt (now + k * ZONE_CYCLE_TIME) (calc_zone_cnt now c).2).1 ≤
      (calc_zone_cnt now c).1 := by
  simp only [ZONE_CYCLE_TIME] at hcase ⊢
  have hA := tdiv_two_eq _ ha0
  by_cases hroll : 2000000 ≤ now - c.cycle_start
  · -- the first estimate rolls the window
    have hb := rolled_avg_bounds ((now - c.cycle_start).tdiv 2000000) c hc0 ha0
    rw [calc_zone_cnt_rolled now c hroll]
    generalize rolled_avg ((now - c.cycle_start).tdiv 2000000) c = a1 at hb
    have ha1b : a1 < 4294967296 := by split_ifs at hb <;> omega
    rcases Nat.eq_zero_or_pos k with hk | hk
    · subst hk
      have := calc_zone_cnt_same_time ⟨now, 0, a1⟩
      simp only [Nat.cast_zero, Int.zero_mul, Int.add_zero]
      rw [this]
    · have hd2 : 2000000 ≤
          now + (k : Int) * 2000000 - (⟨now, 0, a1⟩ : sys_zio_cntr_t).cycle_start := by
        show 2000000 ≤ now + (k : Int) * 2000000 - now
        omega
      rw [calc_zone_cnt_rolled _ _ hd2]
      have hb2 := rolled_avg_bounds
        ((now + (k : Int) * 2000000 - (⟨now, 0, a1⟩ : sys_zio_cntr_t).cycle_start).tdiv 2000000)
        ⟨now, 0, a1⟩ (Int.le_refl 0) hb.1
      generalize rolled_avg _ (⟨now, 0, a1⟩ : sys_zio_cntr_t) = a2 at hb2
      simp only at hb2
      have h2 : a2 ≤ a1 := by split_ifs at hb2 <;> omega
      show to_uint_t a2 ≤ to_uint_t a1
      rw [to_uint_t_of_range a2 hb2.1 (by omega), to_uint_t_of_range a1 hb.1 ha1b]
      exact h2
  · -- the first estimate is taken inside the cycle and leaves the counter as it is
    have hfirst : (calc_zone_cnt now c).2 = c := by
      have h : now - c.cycle_start < 2000000 := by omega
      simp [calc_zone_cnt, compute_historical_zone_cnt, ZONE_CYCLE_TIME, h]
    rw [hfirst]
    rcases Nat.eq_zero_or_pos k with hk | hk
    · subst hk
      simp only [Nat.cast_zero, Int.zero_mul, Int.add_zero]
      exact Int.le_refl _
    · have hd2 : 2000000 ≤ now + (k : Int) * 2000000 - c.cycle_start := by omega
      rw [calc_zone_cnt_rolled _ _ hd2]
      have hb2 := rolled_avg_bounds ((now + (k : Int) * 2000000 - c.cycle_start).tdiv 2000000) c
        hc0 ha0
      generalize rolled_avg _ c = a2 at hb2
      by_cases hearly : now - c.cycle_start < 1000000
      · rw [calc_zone_cnt_early now c (by omega) hearly, hA]
        show to_uint_t a2 ≤ to_uint_t _
        have h2 : a2 ≤ c.cycle_cnt + c.zone_avg_cnt / 2 := by split_ifs at hb2 <;> omega
        rw [to_uint_t_of_range a2 hb2.1 (by omega), to_uint_t_of_range _ (by omega) (by omega)]
        exact h2
      · rw [calc_zone_cnt_late now c (by omega) (by omega)]
        show to_uint_t a2 ≤ to_uint_t _
        have h2 : a2 ≤ c.cycle_cnt := by split_ifs at hb2 <;> omega
        rw [to_uint_t_of_range a2 hb2.1 (by omega), to_uint_t_of_range _ (by omega) (by omega)]
        exact h2

/-- The counter (0, 10, 4) estimated early in its cycle gives 12, and 2 three
cycles later. -/
theorem decay_monotone_amended_witness :
    (500000 : Int) - (⟨0, 10, 4⟩ : sys_zio_cntr_t).cycle_start < ZONE_CYCLE_TIME / 2 ∧
      (calc_zone_cnt 500000 ⟨0, 10, 4⟩).1 = 12 ∧
      (calc_zone_cnt (500000 + (3 : Nat) * ZONE_CYCLE_TIME) (calc_zone_cnt 500000 ⟨0, 10, 4⟩).2).1
        = 2 ∧
      (calc_zone_cnt (500000 + (3 : Nat) * ZONE_CYCLE_TIME) (calc_zone_cnt 500000 ⟨0, 10, 4⟩).2).1
        ≤ (calc_zone_cnt 500000 ⟨0, 10, 4⟩).1 :=
  ⟨by decide, by decide, by decide,
    decay_monotone_amended ⟨0, 10, 4⟩ 500000 3 (by decide) (by decide) (by decide) (by decide)
      (by decide) (Or.inl (by decide))⟩

/-- C8 fails as stated: on the read counter (0, 1, 10) an extra read recorded at
t = 500000, inside the cycle, raises `cycle_cnt` to 2; the estimate at
now = 2000000 then rolls forward to 2, while without the extra record it rolls
forward to 1 + 10 / 2 = 6. -/
theorem monotone_rate_counterexample :
    (0 : Int) ≤ 500000 - (zone_cntr { new_zone 7 with rd_ops := ⟨0, 1, 10⟩ }
        .ZFS_ZONE_IOP_READ).cycle_start ∧
      (500000 : Int) - (zone_cntr { new_zone 7 with rd_ops := ⟨0, 1, 10⟩ }
        .ZFS_ZONE_IOP_READ).cycle_start < ZONE_CYCLE_TIME ∧
      zone_cntr (add_zone_iop { new_zone 7 with rd_ops := ⟨0, 1, 10⟩ } 500000 .ZFS_ZONE_IOP_READ)
        .ZFS_ZONE_IOP_READ = ⟨0, 2, 10⟩ ∧
      (calc_zone_cnt 2000000 ⟨0, 2, 10⟩).1 = 2 ∧
      (calc_zone_cnt 2000000 ⟨0, 1, 10⟩).1 = 6 := by
  decide

/-- C8, amended: for every counter whose fields are non-negative C `int` values,
every record time `t` inside the current cycle and every query time `now >= t`,
the estimate `calc_zone_cnt(now)` after one extra `add_zone_iop` at `t` is not
less than the estimate without it, provided the query falls in the same cycle
(`now - cycle_start < ZONE_CYCLE_TIME`), or `cycle_cnt` is not 1, or
`zone_avg_cnt <= 3`. -/
theorem monotone_rate_amended (z : zone_t) (op : zfs_zone_iop_type_t) (t now : Int)
    (hc0 : 0 ≤ (zone_cntr z op).cycle_cnt) (hc1 : (zone_cntr z op).cycle_cnt < 2147483648)
    (ha0 : 0 ≤ (zone_cntr z op).zone_avg_cnt) (ha1 : (zone_cntr z op).zone_avg_cnt < 2147483648)
    (ht0 : 0 ≤ t - (zone_cntr z op).cycle_start)
    (ht1 : t - (zone_cntr z op).cycle_start < ZONE_CYCLE_TIME) (hnow : t ≤ now)
    (hcase : now - (zone_cntr z op).cycle_start < ZONE_CYCLE_TIME ∨
      (zone_cntr z op).cycle_cnt ≠ 1 ∨ (zone_cntr z op).zone_avg_cnt ≤ 3) :
    (calc_zone_cnt now (zone_cntr z op)).1 ≤
      (calc_zone_cnt now (zone_cntr (add_zone_iop z t op) op)).1 := by
  rw [zone_cntr_add_zone_iop]
  generalize zone_cntr z op = c at *
  simp only [ZONE_CYCLE_TIME] at ht1 hcase
  have hnoroll : (compute_historical_zone_cnt t c).2 = c := by
    simp [compute_historical_zone_cnt, ZONE_CYCLE_TIME, ht1]
  rw [hnoroll]
  obtain ⟨s, n, a⟩ := c
  simp only at hc0 hc1 ha0 ha1 ht0 ht1 hcase ⊢
  have hA := tdiv_two_eq a ha0
  by_cases hroll : 2000000 ≤ now - s
  · rw [calc_zone_cnt_rolled now ⟨s, n, a⟩ hroll, calc_zone_cnt_rolled now ⟨s, n + 1, a⟩ hroll]
    show to_uint_t _ ≤ to_uint_t _
    have hb1 := rolled_avg_bounds ((now - s).tdiv 2000000) ⟨s, n, a⟩ hc0 ha0
    have hb2 := rolled_avg_bounds ((now - s).tdiv 2000000) ⟨s, n + 1, a⟩ (by simp only; omega) ha0
    simp only at hb1 hb2
    have hmono : rolled_avg ((now - s).tdiv 2000000) ⟨s, n, a⟩ ≤
        rolled_avg ((now - s).tdiv 2000000) ⟨s, n + 1, a⟩ := by
      unfold rolled_avg
      simp only [hA]
      by_cases hg : (now - s).tdiv 2000000 > 5
      · simp [hg]
      · simp only [hg, if_false]
        apply tdiv_two_pow_mono
        · split_ifs <;> omega
        · split_ifs <;> omega
    rw [to_uint_t_of_range _ hb1.1 (by split_ifs at hb1 <;> omega),
      to_uint_t_of_range _ hb2.1 (by split_ifs at hb2 <;> omega)]
    exact hmono
  · by_cases hzero : now - s = 0
    · have hs : now = s := by omega
      subst hs
      rw [calc_zone_cnt_same_time ⟨now, n, a⟩, calc_zone_cnt_same_time ⟨now, n + 1, a⟩]
    · by_cases hearly : now - s < 1000000
      · rw [calc_zone_cnt_early now ⟨s, n, a⟩ (by simp only; omega) hearly,
          calc_zone_cnt_early now ⟨s, n + 1, a⟩ (by simp only; omega) hearly]
        show to_uint_t _ ≤ to_uint_t _
        simp only [hA]
        rw [to_uint_t_of_range _ (by omega) (by omega), to_uint_t_of_range _ (by omega) (by omega)]
        omega
      · rw [calc_zone_cnt_late now ⟨s, n, a⟩ (by simp only; omega) (by simp only; omega),
          calc_zone_cnt_late now ⟨s, n + 1, a⟩ (by simp only; omega) (by simp only; omega)]
        show to_uint_t n ≤ to_uint_t (n + 1)
        rw [to_uint_t_of_range _ (by omega) (by omega), to_uint_t_of_range _ (by omega) (by omega)]
        omega

/-- The zone of the counterexample queried inside the cycle, at 1500000: 1
without the extra read, 2 with it. -/
theorem monotone_rate_amended_witness :
    (1500000 : Int) - (zone_cntr { new_zone 7 with rd_ops := ⟨0, 1, 10⟩ }
        .ZFS_ZONE_IOP_READ).cycle_start < ZONE_CYCLE_TIME ∧
      (calc_zone_cnt 1500000 (zone_cntr { new_zone 7 with rd_ops := ⟨0, 1, 10⟩ }
        .ZFS_ZONE_IOP_READ)).1 = 1 ∧
      (calc_zone_cnt 1500000 (zone_cntr (add_zone_iop { new_zone 7 with rd_ops := ⟨0, 1, 10⟩ }
        500000 .ZFS_ZONE_IOP_READ) .ZFS_ZONE_IOP_READ)).1 = 2 ∧
      (calc_zone_cnt 1500000 (zone_cntr { new_zone 7 with rd_ops := ⟨0, 1, 10⟩ }
        .ZFS_ZONE_IOP_READ)).1 ≤
      (calc_zone_cnt 1500000 (zone_cntr (add_zone_iop { new_zone 7 with rd_ops := ⟨0, 1, 10⟩ }
        500000 .ZFS_ZONE_IOP_READ) .ZFS_ZONE_IOP_READ)).1 :=
  ⟨by decide, by decide, by decide,
    monotone_rate_amended { new_zone 7 with rd_ops := ⟨0, 1, 10⟩ } .ZFS_ZONE_IOP_READ
      500000 1500000 (by decide) (by decide) (by decide) (by decide) (by decide) (by decide)
      (by decide) (Or.inl (by decide))⟩

/-! ## The decaying latency average -/

/-- The average of the source is the closed form of the specification, returned
as a `uint_t`. -/
theorem calc_avg_lat_closed (now : Int) (a : sys_lat_cycle_t) :
    calc_avg_lat now a = (to_uint_t (spec_average now a).1, (spec_average now a).2) := by
  by_cases h : now - a.cycle_start < 1000000
  · simp [calc_avg_lat, compute_new_sys_avg, spec_average, CYCLE_TIME, h, weighted_divisor,
      Int.mul_comm]
  · simp [calc_avg_lat, compute_new_sys_avg, spec_average, CYCLE_TIME, h, roll_divisor,
      decay_generations, halve_times_eq]

theorem calc_avg_lat_fst_nonneg (now : Int) (a : sys_lat_cycle_t) :
    0 ≤ (calc_avg_lat now a).1 := by
  rw [calc_avg_lat_closed]
  exact to_uint_t_nonneg _

/-- An aggregator that never received a sample averages 0 at every time. -/
theorem calc_avg_lat_zero (now : Int) : (calc_avg_lat now ⟨0, 0, 0, 0⟩).1 = 0 := by
  rw [calc_avg_lat_closed]
  simp only [spec_average]
  split_ifs <;> simp [to_uint_t]

/-- C10: `get_sys_avg_lat` returns the read latency `calc_avg_lat(now, rd_lat)`
replaced by 1000 when it is 0 and the write latency `calc_avg_lat(now, wr_lat)`
replaced by 10 when it is 0, the computed values otherwise, and leaves the two
aggregators as `calc_avg_lat` leaves them; both returned latencies are at least
1.  For aggregators that never received a sample (all fields zero) and every
`now >= 0` it returns (1000, 10). -/
theorem get_sys_avg_lat_floor :
    (∀ (now : Int) (g : zfs_zone_globals),
      (get_sys_avg_lat now g).1 =
          (if (calc_avg_lat now g.rd_lat).1 = 0 then 1000 else (calc_avg_lat now g.rd_lat).1,
           if (calc_avg_lat now g.wr_lat).1 = 0 then 10 else (calc_avg_lat now g.wr_lat).1) ∧
        (get_sys_avg_lat now g).2 =
          { g with rd_lat := (calc_avg_lat now g.rd_lat).2,
                   wr_lat := (calc_avg_lat now g.wr_lat).2 } ∧
        1 ≤ (get_sys_avg_lat now g).1.1 ∧ 1 ≤ (get_sys_avg_lat now g).1.2) ∧
    (∀ (now : Int) (g : zfs_zone_globals),
      g.rd_lat = ⟨0, 0, 0, 0⟩ → g.wr_lat = ⟨0, 0, 0, 0⟩ → 0 ≤ now →
        (get_sys_avg_lat now g).1 = (1000, 10)) := by
  constructor
  · intro now g
    have hr := calc_avg_lat_fst_nonneg now g.rd_lat
    have hw := calc_avg_lat_fst_nonneg now g.wr_lat
    refine ⟨rfl, rfl, ?_, ?_⟩
    · show 1 ≤ (if (calc_avg_lat now g.rd_lat).1 = 0 then 1000 else (calc_avg_lat now g.rd_lat).1)
      split_ifs <;> omega
    · show 1 ≤ (if (calc_avg_lat now g.wr_lat).1 = 0 then 10 else (calc_avg_lat now g.wr_lat).1)
      split_ifs <;> omega
  · intro now g hr hw _
    simp [get_sys_avg_lat, hr, hw, calc_avg_lat_zero]

/-- The initial file-scope variables, queried 7.5 seconds after boot. -/
theorem get_sys_avg_lat_floor_witness :
    initial_globals.rd_lat = ⟨0, 0, 0, 0⟩ ∧ initial_globals.wr_lat = ⟨0, 0, 0, 0⟩ ∧
      (0 : Int) ≤ 7500000 ∧ (get_sys_avg_lat 7500000 initial_globals).1 = (1000, 10) :=
  ⟨rfl, rfl, by decide,
    get_sys_avg_lat_floor.2 7500000 initial_globals rfl rfl (by decide)⟩

/-! ## The utilization pass and the re-evaluation -/

theorem nat_or_eq_zero (a b : Nat) : a ||| b = 0 ↔ a = 0 ∧ b = 0 := by
  constructor
  · intro h
    have ha : ∀ i, a.testBit i = false := fun i => by
      have := congrArg (fun n => n.testBit i) h
      simp [Nat.testBit_or] at this
      exact this.1
    have hb : ∀ i, b.testBit i = false := fun i => by
      have := congrArg (fun n => n.testBit i) h
      simp [Nat.testBit_or] at this
      exact this.2
    exact ⟨Nat.eq_of_testBit_eq (by simpa using ha), Nat.eq_of_testBit_eq (by simpa using hb)⟩
  · rintro ⟨rfl, rfl⟩
    rfl

theorem uint_util_eq (a b c d e : Int) :
    uint_mul (uint_add (uint_add (uint_mul a b) (uint_mul c d)) (uint_mul e d)) 1000 =
      to_uint_t (spec_util a c e b d) := by
  simp only [uint_mul, uint_add, to_uint_t, spec_util]
  have h1 : Int.ModEq 4294967296 (a * b % 4294967296) (a * b) := Int.mod_modEq _ _
  have h2 : Int.ModEq 4294967296 (c * d % 4294967296) (c * d) := Int.mod_modEq _ _
  have h3 : Int.ModEq 4294967296 (e * d % 4294967296) (e * d) := Int.mod_modEq _ _
  have h4 := (Int.mod_modEq (a * b % 4294967296 + c * d % 4294967296) 4294967296).trans (h1.add h2)
  have h5 := (Int.mod_modEq ((a * b % 4294967296 + c * d % 4294967296) % 4294967296 +
    e * d % 4294967296) 4294967296).trans (h4.add h3)
  have h6 := h5.mul_left 1000
  rw [Int.mul_comm] at h6
  exact h6

theorem calc_zone_cnt_fst_nonneg (now : Int) (c : sys_zio_cntr_t) : 0 ≤ (calc_zone_cnt now c).1 := by
  simp only [calc_zone_cnt]
  exact to_uint_t_nonneg _

/-- The value that `get_zone_io_cnt` returns is 0 exactly when the three estimates
are 0. -/
theorem get_zone_io_cnt_eq_zero (now : Int) (z : zone_t) :
    (get_zone_io_cnt now z).1 = 0 ↔ zone_estimates now z = (0, 0, 0) := by
  have hr := calc_zone_cnt_fst_nonneg now z.rd_ops
  have hw := calc_zone_cnt_fst_nonneg now z.wr_ops
  have hl := calc_zone_cnt_fst_nonneg now z.lwr_ops
  simp only [zone_estimates, get_zone_io_cnt, Prod.mk.injEq]
  rw [Int.natCast_eq_zero, nat_or_eq_zero, nat_or_eq_zero]
  constructor
  · rintro ⟨⟨h1, h2⟩, h3⟩
    exact ⟨by omega, by omega, by omega⟩
  · rintro ⟨h1, h2, h3⟩
    exact ⟨⟨by omega, by omega⟩, by omega⟩

/-- The zone that the utilization callback leaves, case by case. -/
theorem calculate_cb_zone (z : zone_t) (sp : zoneio_stats_t) :
    (zfs_zone_wait_adjust_calculate_cb z sp).2.1 =
      if z.zone_id = 0 then { z with zone_io_util := 0 }
      else if zone_estimates sp.zi_now z = (0, 0, 0) then
        { (get_zone_io_cnt sp.zi_now z).2.2 with zone_io_util := 0 }
      else
        { (get_zone_io_cnt sp.zi_now z).2.2 with
          zone_io_util :=
            (to_uint_t (spec_util (zone_estimates sp.zi_now z).1 (zone_estimates sp.zi_now z).2.1
              (zone_estimates sp.zi_now z).2.2 sp.zi_avgrlat sp.zi_avgwlat)).toNat } := by
  simp only [zfs_zone_wait_adjust_calculate_cb, GLOBAL_ZONEID]
  by_cases h0 : z.zone_id = 0
  · simp [h0]
  · simp only [h0, if_false]
    by_cases h1 : (get_zone_io_cnt sp.zi_now z).1 = 0
    · have h2 := (get_zone_io_cnt_eq_zero sp.zi_now z).1 h1
      simp [h1, h2]
    · have h2 : ¬ zone_estimates sp.zi_now z = (0, 0, 0) :=
        fun h => h1 ((get_zone_io_cnt_eq_zero sp.zi_now z).2 h)
      simp only [h1, h2, if_false, uint_util_eq]
      rfl

theorem calculate_cb_util_lt (z : zone_t) (sp : zoneio_stats_t) :
    (zfs_zone_wait_adjust_calculate_cb z sp).2.1.zone_io_util < 4294967296 := by
  rw [calculate_cb_zone]
  split_ifs
  · show (0 : Nat) < 4294967296
    omega
  · show (0 : Nat) < 4294967296
    omega
  · have h := to_uint_t_nonneg (spec_util (zone_estimates sp.zi_now z).1
      (zone_estimates sp.zi_now z).2.1 (zone_estimates sp.zi_now z).2.2 sp.zi_avgrlat sp.zi_avgwlat)
    have h2 : to_uint_t (spec_util (zone_estimates sp.zi_now z).1
      (zone_estimates sp.zi_now z).2.1 (zone_estimates sp.zi_now z).2.2 sp.zi_avgrlat
        sp.zi_avgwlat) < 4294967296 := by
      unfold to_uint_t
      omega
    show (to_uint_t _).toNat < 4294967296
    omega

/-- The zone that the utilization callback leaves depends on the statistics only
through the time and the two latencies. -/
theorem calculate_cb_zone_congr (z : zone_t) (sp sp' : zoneio_stats_t)
    (h1 : sp'.zi_now = sp.zi_now) (h2 : sp'.zi_avgrlat = sp.zi_avgrlat)
    (h3 : sp'.zi_avgwlat = sp.zi_avgwlat) :
    (zfs_zone_wait_adjust_calculate_cb z sp').2.1 =
      (zfs_zone_wait_adjust_calculate_cb z sp).2.1 := by
  rw [calculate_cb_zone, calculate_cb_zone, h1, h2, h3]

theorem calculate_cb_ret (z : zone_t) (sp : zoneio_stats_t) :
    (zfs_zone_wait_adjust_calculate_cb z sp).1 = 0 := by
  simp only [zfs_zone_wait_adjust_calculate_cb]
  split_ifs <;> rfl

/-- The statistics that the utilization callback leaves: the utilization it stored
is added to the total, and counted when it is positive. -/
theorem calculate_cb_stats (z : zone_t) (sp : zoneio_stats_t)
    (ht : sp.zi_totutil < 18446744073709551616) :
    (zfs_zone_wait_adjust_calculate_cb z sp).2.2 =
      { sp with
        zi_totutil :=
          add_64 sp.zi_totutil (zfs_zone_wait_adjust_calculate_cb z sp).2.1.zone_io_util,
        zi_active :=
          sp.zi_active +
            (if (zfs_zone_wait_adjust_calculate_cb z sp).2.1.zone_io_util > 0 then 1 else 0) } := by
  have hid : add_64 sp.zi_totutil 0 = sp.zi_totutil := by
    unfold add_64
    omega
  by_cases h0 : z.zone_id = GLOBAL_ZONEID
  · simp [zfs_zone_wait_adjust_calculate_cb, h0, hid]
  · by_cases h1 : (get_zone_io_cnt sp.zi_now z).1 = 0
    · simp [zfs_zone_wait_adjust_calculate_cb, h0, h1, hid]
    · simp only [zfs_zone_wait_adjust_calculate_cb, h0, h1, if_false]
      split_ifs with h2
      · rfl
      · simp

theorem zone_walk_calculate (zones : List zone_t) (sp : zoneio_stats_t)
    (ht : sp.zi_totutil < 18446744073709551616) :
    zone_walk zfs_zone_wait_adjust_calculate_cb zones sp =
      (0, zones.map (fun z => (zfs_zone_wait_adjust_calculate_cb z sp).2.1),
        { sp with
          zi_totutil :=
            (sp.zi_totutil +
              ((zones.map (fun z => (zfs_zone_wait_adjust_calculate_cb z sp).2.1)).map
                (fun z => z.zone_io_util)).sum) % 18446744073709551616,
          zi_active :=
            sp.zi_active +
              ((zones.map (fun z => (zfs_zone_wait_adjust_calculate_cb z sp).2.1)).countP
                (fun z => decide (z.zone_io_util > 0)) : Nat) }) := by
  induction zones generalizing sp with
  | nil =>
    simp only [zone_walk, List.map_nil, List.sum_nil, List.countP_nil, Nat.add_zero,
      Nat.cast_zero, Int.add_zero]
    have : sp.zi_totutil % 18446744073709551616 = sp.zi_totutil := Nat.mod_eq_of_lt ht
    rw [this]
  | cons z zs ih =>
    have hs := calculate_cb_stats z sp ht
    have hlt : (zfs_zone_wait_adjust_calculate_cb z sp).2.2.zi_totutil < 18446744073709551616 := by
      rw [hs]
      show add_64 _ _ < _
      unfold add_64
      omega
    have hcongr : ∀ z', (zfs_zone_wait_adjust_calculate_cb z'
        (zfs_zone_wait_adjust_calculate_cb z sp).2.2).2.1 =
        (zfs_zone_wait_adjust_calculate_cb z' sp).2.1 := fun z' =>
      calculate_cb_zone_congr z' sp _ (by rw [hs]) (by rw [hs]) (by rw [hs])
    rw [zone_walk]
    simp only [calculate_cb_ret, ne_eq, not_true_eq_false, if_false]
    rw [ih _ hlt]
    simp only [hcongr, List.map_cons, List.sum_cons, List.countP_cons]
    refine Prod.ext rfl (Prod.ext rfl ?_)
    simp only
    rw [hs]
    generalize (zfs_zone_wait_adjust_calculate_cb z sp).2.1.zone_io_util = u
    generalize ((zs.map (fun z => (zfs_zone_wait_adjust_calculate_cb z sp).2.1)).map
      (fun z => z.zone_io_util)).sum = S
    generalize (zs.map (fun z => (zfs_zone_wait_adjust_calculate_cb z sp).2.1)).countP
      (fun z => decide (z.zone_io_util > 0)) = C
    simp only [add_64]
    congr 1
    · omega
    · by_cases hu : u > 0
      · simp [hu]; omega
      · simp [hu]

theorem zone_walk_delay (g : zfs_zone_globals) (zones : List zone_t) (sp : zoneio_stats_t) :
    zone_walk (delay_cb_walk g) zones sp =
      (0, zones.map (zfs_zone_wait_adjust_delay_cb g sp), sp) := by
  induction zones with
  | nil => rfl
  | cons z zs ih =>
    rw [zone_walk]
    simp only [delay_cb_walk, ne_eq, not_true_eq_false, if_false]
    have := ih
    simp only [delay_cb_walk] at this
    rw [this]
    rfl

theorem delay_cb_util (g : zfs_zone_globals) (sp : zoneio_stats_t) (z : zone_t) :
    (zfs_zone_wait_adjust_delay_cb g sp z).zone_io_util = z.zone_io_util := rfl

theorem delay_cb_zone_id (g : zfs_zone_globals) (sp : zoneio_stats_t) (z : zone_t) :
    (zfs_zone_wait_adjust_delay_cb g sp z).zone_id = z.zone_id := rfl

theorem map_delay_cb_util (g : zfs_zone_globals) (sp : zoneio_stats_t) (l : List zone_t) :
    (l.map (zfs_zone_wait_adjust_delay_cb g sp)).map (fun z => z.zone_io_util) =
      l.map (fun z => z.zone_io_util) := by
  rw [List.map_map]
  rfl

theorem countP_delay_cb_util (g : zfs_zone_globals) (sp : zoneio_stats_t) (l : List zone_t) :
    (l.map (zfs_zone_wait_adjust_delay_cb g sp)).countP (fun z => decide (z.zone_io_util > 0)) =
      l.countP (fun z => decide (z.zone_io_util > 0)) := by
  rw [List.countP_map]
  rfl

/-- The re-evaluation in closed form: every zone goes through the utilization
callback under the initial statistics and then through the delay callback under
the final ones. -/
theorem zfs_zone_wait_adjust_eq (now : Int) (g : zfs_zone_globals) (zones : List zone_t) :
    zfs_zone_wait_adjust now g zones =
      ((zfs_zone_wait_adjust now g zones).1, (get_sys_avg_lat now g).2,
        zones.map (fun z =>
          zfs_zone_wait_adjust_delay_cb (get_sys_avg_lat now g).2
            (zfs_zone_wait_adjust now g zones).1
            (zfs_zone_wait_adjust_calculate_cb z (first_pass_stats now g)).2.1)) := by
  have hw := zone_walk_calculate zones (first_pass_stats now g) (by simp [first_pass_stats])
  unfold zfs_zone_wait_adjust
  simp only [first_pass_stats] at hw ⊢
  simp only [hw, ne_eq, not_true_eq_false, if_false, zone_walk_delay, List.map_map]
  rfl

/-- The statistics at the end of a re-evaluation, in terms of the utilizations
that the zones hold at the end. -/
theorem zfs_zone_wait_adjust_stats (now : Int) (g : zfs_zone_globals) (zones : List zone_t) :
    (zfs_zone_wait_adjust now g zones).1.zi_totutil =
        ((zfs_zone_wait_adjust now g zones).2.2.map (fun z => z.zone_io_util)).sum
          % 18446744073709551616 ∧
      (zfs_zone_wait_adjust now g zones).1.zi_active =
        (((zfs_zone_wait_adjust now g zones).2.2.countP
          (fun z => decide (z.zone_io_util > 0)) : Nat) : Int) ∧
      (zfs_zone_wait_adjust now g zones).1.zi_avgutil =
        (if (zfs_zone_wait_adjust now g zones).1.zi_active > 0 then
          (zfs_zone_wait_adjust now g zones).1.zi_totutil /
            (zfs_zone_wait_adjust now g zones).1.zi_active.toNat
        else 0) := by
  have hw := zone_walk_calculate zones (first_pass_stats now g) (by simp [first_pass_stats])
  unfold zfs_zone_wait_adjust
  simp only [first_pass_stats] at hw ⊢
  simp only [hw, ne_eq, not_true_eq_false, if_false, zone_walk_delay, map_delay_cb_util,
    countP_delay_cb_util, Nat.zero_add, Int.zero_add]
  refine ⟨?_, ?_, ?_⟩
  · split_ifs <;> rfl
  · split_ifs <;> rfl
  · split_ifs <;> rfl

theorem mem_zip_map {α β : Type} (f : α → β) (l : List α) (p : α × β)
    (h : p ∈ List.zip l (l.map f)) : p.1 ∈ l ∧ p.2 = f p.1 := by
  induction l with
  | nil => simp at h
  | cons a as ih =>
    simp only [List.map_cons, List.zip_cons_cons, List.mem_cons] at h
    rcases h with h | h
    · subst h
      exact ⟨List.mem_cons_self _ _, rfl⟩
    · exact ⟨List.mem_cons_of_mem _ (ih h).1, (ih h).2⟩

theorem sum_eq_count_mul (us : List Nat) (u : Nat) (h : ∀ x ∈ us, 0 < x → x = u) :
    us.sum = us.countP (fun x => decide (x > 0)) * u := by
  induction us with
  | nil => simp
  | cons a as ih =>
    have ha := h a (List.mem_cons_self _ _)
    have ih' := ih (fun x hx => h x (List.mem_cons_of_mem _ hx))
    rw [List.sum_cons, List.countP_cons, ih']
    by_cases h0 : a > 0
    · simp only [h0, decide_True, if_true, Nat.add_mul, Nat.one_mul]
      have := ha h0
      omega
    · simp only [h0, decide_False]
      simp only [not_lt, Nat.le_zero] at h0
      simp [h0]

theorem sum_le_count_mul (us : List Nat) (M : Nat) (h : ∀ x ∈ us, x ≤ M) :
    us.sum ≤ us.countP (fun x => decide (x > 0)) * M := by
  induction us with
  | nil => simp
  | cons a as ih =>
    have ha := h a (List.mem_cons_self _ _)
    have ih' := ih (fun x hx => h x (List.mem_cons_of_mem _ hx))
    rw [List.sum_cons, List.countP_cons]
    by_cases h0 : a > 0
    · simp only [h0, decide_True, if_true, Nat.add_mul, Nat.one_mul]
      omega
    · simp only [h0, decide_False]
      simp only [not_lt, Nat.le_zero] at h0
      simp [h0, ih']

theorem sum_lt_count_mul (us : List Nat) (M : Nat) (h : ∀ x ∈ us, x ≤ M)
    (hex : ∃ x ∈ us, 0 < x ∧ x < M) :
    us.sum < us.countP (fun x => decide (x > 0)) * M := by
  induction us with
  | nil => simp at hex
  | cons a as ih =>
    have ha := h a (List.mem_cons_self _ _)
    have hle := sum_le_count_mul as M (fun x hx => h x (List.mem_cons_of_mem _ hx))
    rw [List.sum_cons, List.countP_cons]
    obtain ⟨x, hx, hx0, hxM⟩ := hex
    rcases List.mem_cons.1 hx with rfl | hx'
    · simp only [hx0, decide_True, if_true, Nat.add_mul, Nat.one_mul]
      omega
    · have ih' := ih (fun y hy => h y (List.mem_cons_of_mem _ hy)) ⟨x, hx', hx0, hxM⟩
      by_cases h0 : a > 0
      · simp only [h0, decide_True, if_true, Nat.add_mul, Nat.one_mul]
        omega
      · simp only [h0, decide_False]
        simp only [not_lt, Nat.le_zero] at h0
        simp [h0, ih']

theorem count_mul_le_sum (us : List Nat) (m : Nat) (h : ∀ x ∈ us, 0 < x → m ≤ x) :
    us.countP (fun x => decide (x > 0)) * m ≤ us.sum := by
  induction us with
  | nil => simp
  | cons a as ih =>
    have ha := h a (List.mem_cons_self _ _)
    have ih' := ih (fun x hx => h x (List.mem_cons_of_mem _ hx))
    rw [List.sum_cons, List.countP_cons]
    by_cases h0 : a > 0
    · simp only [h0, decide_True, if_true, Nat.add_mul, Nat.one_mul]
      have := ha h0
      omega
    · simp only [h0, decide_False]
      simp only [not_lt, Nat.le_zero] at h0
      simp [h0, ih']

theorem countP_util_map (l : List zone_t) :
    (l.map (fun z => z.zone_io_util)).countP (fun x => decide (x > 0)) =
      l.countP (fun z => decide (z.zone_io_util > 0)) := by
  rw [List.countP_map]
  rfl

theorem calculate_cb_delay (z : zone_t) (sp : zoneio_stats_t) :
    (zfs_zone_wait_adjust_calculate_cb z sp).2.1.zone_io_delay = z.zone_io_delay := by
  rw [calculate_cb_zone]
  split_ifs <;> rfl

theorem calculate_cb_zone_id (z : zone_t) (sp : zoneio_stats_t) :
    (zfs_zone_wait_adjust_calculate_cb z sp).2.1.zone_id = z.zone_id := by
  rw [calculate_cb_zone]
  split_ifs <;> rfl

theorem calculate_cb_skipped (z : zone_t) (sp : zoneio_stats_t)
    (h : z.zone_id = GLOBAL_ZONEID ∨ zone_estimates sp.zi_now z = (0, 0, 0)) :
    (zfs_zone_wait_adjust_calculate_cb z sp).2.1.zone_io_util = 0 := by
  rw [calculate_cb_zone]
  simp only [GLOBAL_ZONEID] at h
  split_ifs with h0 h1
  · rfl
  · rfl
  · rcases h with h | h
    · exact absurd h h0
    · exact absurd h h1

/-- Each zone after a re-evaluation, in terms of the zone before it. -/
theorem zfs_zone_wait_adjust_pair (now : Int) (g : zfs_zone_globals) (zones : List zone_t)
    (p : zone_t × zone_t) (hp : p ∈ List.zip zones (zfs_zone_wait_adjust now g zones).2.2) :
    p.1 ∈ zones ∧
      p.2 = zfs_zone_wait_adjust_delay_cb (get_sys_avg_lat now g).2
        (zfs_zone_wait_adjust now g zones).1
        (zfs_zone_wait_adjust_calculate_cb p.1 (first_pass_stats now g)).2.1 := by
  rw [zfs_zone_wait_adjust_eq] at hp
  exact mem_zip_map _ zones p hp

theorem zfs_zone_wait_adjust_length (now : Int) (g : zfs_zone_globals) (zones : List zone_t) :
    (zfs_zone_wait_adjust now g zones).2.2.length = zones.length := by
  rw [zfs_zone_wait_adjust_eq]
  simp

theorem zfs_zone_wait_adjust_mem (now : Int) (g : zfs_zone_globals) (zones : List zone_t)
    (z : zone_t) (hz : z ∈ (zfs_zone_wait_adjust now g zones).2.2) :
    ∃ z0 ∈ zones, z = zfs_zone_wait_adjust_delay_cb (get_sys_avg_lat now g).2
        (zfs_zone_wait_adjust now g zones).1
        (zfs_zone_wait_adjust_calculate_cb z0 (first_pass_stats now g)).2.1 := by
  rw [zfs_zone_wait_adjust_eq] at hz
  simp only [List.mem_map] at hz
  obtain ⟨z0, h0, h1⟩ := hz
  exact ⟨z0, h0, h1.symm⟩

theorem sum_filter_of_zero {α : Type} (f : α → Nat) (q : α → Bool) (l : List α)
    (h : ∀ a ∈ l, q a = false → f a = 0) : ((l.filter q).map f).sum = (l.map f).sum := by
  induction l with
  | nil => rfl
  | cons a as ih =>
    have ih' := ih (fun b hb => h b (List.mem_cons_of_mem _ hb))
    by_cases hq : q a = true
    · simp [List.filter_cons, hq, ih']
    · have hq' : q a = false := by simpa using hq
      simp [List.filter_cons, hq', ih', h a (List.mem_cons_self _ _) hq']

theorem map_snd_zip_map {α β : Type} (f : α → β) (l : List α) :
    (List.zip l (l.map f)).map Prod.snd = l.map f := by
  induction l with
  | nil => rfl
  | cons a as ih => simp [ih]

theorem util_sum_lt (l : List zone_t) (h : ∀ z ∈ l, z.zone_io_util < 4294967296)
    (hl : l.length < 4294967296) :
    (l.map (fun z => z.zone_io_util)).sum < 18446744073709551616 := by
  have hle : (l.map (fun z => z.zone_io_util)).sum ≤ l.length * 4294967295 := by
    induction l with
    | nil => simp
    | cons a as ih =>
      have ha := h a (List.mem_cons_self _ _)
      have := ih (fun z hz => h z (List.mem_cons_of_mem _ hz))
        (by simp only [List.length_cons] at hl; omega)
      simp only [List.map_cons, List.sum_cons, List.length_cons, Nat.succ_mul]
      omega
  have : l.length * 4294967295 ≤ 4294967295 * 4294967295 :=
    Nat.mul_le_mul_right _ (by omega)
  omega

/-! ## Claims on the utilization pass, the controller and the entry points -/

/-- C11, evaluated on the code: the utilization is computed in `uint_t`, so the
stored `io_util` is always below 2^32 and is the integer
`1000 * (r_ops * avg_r_lat + w_ops * avg_w_lat + lw_ops * avg_w_lat)` reduced
modulo 2^32.  A zone with 20000 reads in the current cycle under a read latency
of 500 gets 1410065408, where the integer formula gives 10000000000; the same
value is stored by a whole re-evaluation. -/
theorem utilization_is_32_bit :
    (∀ (z : zone_t) (sp : zoneio_stats_t),
      (zfs_zone_wait_adjust_calculate_cb z sp).2.1.zone_io_util < 4294967296) ∧
      zone_estimates 1500000 { new_zone 7 with rd_ops := ⟨0, 20000, 0⟩ } = (20000, 0, 0) ∧
      spec_util 20000 0 0 500 10 = 10000000000 ∧
      (zfs_zone_wait_adjust_calculate_cb { new_zone 7 with rd_ops := ⟨0, 20000, 0⟩ }
        { stats_of 0 0 with zi_now := 1500000, zi_avgrlat := 500 }).2.1.zone_io_util
        = 1410065408 ∧
      (zfs_zone_wait_adjust 1500000 { initial_globals with rd_lat := ⟨0, 0, 0, 500⟩ }
        [{ new_zone 7 with rd_ops := ⟨0, 20000, 0⟩ }]).2.2.map (fun z => z.zone_io_util)
        = [1410065408] :=
  ⟨calculate_cb_util_lt, by decide, by decide, by decide, by decide⟩

/-- C17, evaluated on the code: a zone with 131072 logical writes in the current
cycle, under a write latency of 4096 (and the read floor of 1000), has a nonzero
estimate and both latencies at least 1, yet the `uint_t` product
`131072 * 4096 * 1000 = 125 * 2^32` is 0: the callback stores `io_util = 0` and
leaves the count of active zones as it is; after a whole re-evaluation no zone
is active. -/
theorem observed_io_with_zero_utilization :
    zone_estimates 1500000 { new_zone 7 with lwr_ops := ⟨0, 131072, 0⟩ } = (0, 0, 131072) ∧
      (get_sys_avg_lat 1500000 { initial_globals with wr_lat := ⟨0, 0, 0, 4096⟩ }).1
        = (1000, 4096) ∧
      spec_util 0 0 131072 1000 4096 = 125 * 4294967296 ∧
      zfs_zone_wait_adjust_calculate_cb { new_zone 7 with lwr_ops := ⟨0, 131072, 0⟩ }
          { stats_of 0 0 with zi_now := 1500000, zi_avgwlat := 4096 } =
        (0, { new_zone 7 with lwr_ops := ⟨0, 131072, 0⟩ },
          { stats_of 0 0 with zi_now := 1500000, zi_avgwlat := 4096 }) ∧
      (zfs_zone_wait_adjust 1500000 { initial_globals with wr_lat := ⟨0, 0, 0, 4096⟩ }
        [{ new_zone 7 with lwr_ops := ⟨0, 131072, 0⟩ }]).1.zi_active = 0 :=
  ⟨by decide, by decide, by decide, by decide, by decide⟩

/-- Under sustained load above the average the delay climbs by the step up to the
ceiling. -/
theorem delay_after_heavy (g : zfs_zone_globals) (step : Nat) (rs : List reeval_input)
    (z : zone_t) (hz : z.zone_io_delay ≤ g.zfs_zone_delay_ceiling)
    (hc : g.zfs_zone_delay_ceiling < 65536) (hs : step < 65536)
    (hrs : ∀ r ∈ rs, r.delay_step = step ∧ r.io_util > r.stats.zi_avgutil ∧
      r.stats.zi_active > 1) :
    (delay_after g z rs).zone_io_delay =
      min (z.zone_io_delay + rs.length * step) g.zfs_zone_delay_ceiling := by
  induction rs generalizing z with
  | nil => simp [delay_after, hz]
  | cons r rs ih =>
    have hr := hrs r (List.mem_cons_self _ _)
    have hstep : (zfs_zone_wait_adjust_delay_cb { g with zfs_zone_delay_step := r.delay_step }
        r.stats { z with zone_io_util := r.io_util }).zone_io_delay =
        min (z.zone_io_delay + step) g.zfs_zone_delay_ceiling := by
      obtain ⟨h1, h2, h3⟩ := hr
      simp only [zfs_zone_wait_adjust_delay_cb, to_uint16, h1]
      split_ifs <;> omega
    rw [delay_after, ih _ (by rw [hstep]; omega) (fun r' h' => hrs r' (List.mem_cons_of_mem _ h')),
      hstep, List.length_cons, Nat.succ_mul]
    omega

/-- With at most one active zone a delay of 0 stays 0. -/
theorem delay_after_isolated (g : zfs_zone_globals) (rs : List reeval_input) (z : zone_t)
    (hz : z.zone_io_delay = 0) (hrs : ∀ r ∈ rs, r.stats.zi_active ≤ 1) :
    (delay_after g z rs).zone_io_delay = 0 := by
  induction rs generalizing z with
  | nil => simpa [delay_after] using hz
  | cons r rs ih =>
    have hr := hrs r (List.mem_cons_self _ _)
    rw [delay_after]
    apply ih _ _ (fun r' h' => hrs r' (List.mem_cons_of_mem _ h'))
    simp only [zfs_zone_wait_adjust_delay_cb, to_uint16, hz]
    split_ifs <;> omega

/-- With at most one active zone the callback takes the decrease branch. -/
theorem delay_cb_isolated (g : zfs_zone_globals) (sp : zoneio_stats_t) (z : zone_t)
    (ha : sp.zi_active ≤ 1) (hs : 1 ≤ g.zfs_zone_delay_step) :
    ((zfs_zone_wait_adjust_delay_cb g sp z).zone_io_delay < z.zone_io_delay ∨
        ((zfs_zone_wait_adjust_delay_cb g sp z).zone_io_delay = 0 ∧ z.zone_io_delay = 0)) ∧
      (z.zone_io_delay < 65536 →
        (zfs_zone_wait_adjust_delay_cb g sp z).zone_io_delay =
          z.zone_io_delay - g.zfs_zone_delay_step) := by
  simp only [zfs_zone_wait_adjust_delay_cb, to_uint16]
  split_ifs <;> omega

/-- C12: the first pass of `zfs_zone_wait_adjust` computes the aggregate of the
specification over any list of zones.  The global zone (identifier 0) and every
zone whose three estimates are all zero get `io_util = 0`, so they add to neither
the total nor the count; afterwards `zi_totutil` is the sum of `io_util` over the
remaining zones (in the 64-bit `zi_totutil`, hence exactly the sum for fewer than
2^32 zones), `zi_active` is the number of zones with `io_util > 0`, and
`zi_avgutil = zi_totutil / zi_active` if `zi_active > 0` and 0 otherwise. -/
theorem first_pass_aggregate (now : Int) (g : zfs_zone_globals) (zones : List zone_t) :
    (zfs_zone_wait_adjust now g zones).2.2.length = zones.length ∧
      (∀ p ∈ List.zip zones (zfs_zone_wait_adjust now g zones).2.2,
        (p.1.zone_id = GLOBAL_ZONEID ∨ zone_estimates now p.1 = (0, 0, 0)) →
          p.2.zone_io_util = 0) ∧
      (zfs_zone_wait_adjust now g zones).1.zi_totutil =
        ((((List.zip zones (zfs_zone_wait_adjust now g zones).2.2).filter
            (fun p => !decide (p.1.zone_id = GLOBAL_ZONEID ∨
              zone_estimates now p.1 = (0, 0, 0)))).map
          (fun p => p.2.zone_io_util)).sum) % 18446744073709551616 ∧
      (zones.length < 4294967296 →
        (zfs_zone_wait_adjust now g zones).1.zi_totutil =
          (((List.zip zones (zfs_zone_wait_adjust now g zones).2.2).filter
              (fun p => !decide (p.1.zone_id = GLOBAL_ZONEID ∨
                zone_estimates now p.1 = (0, 0, 0)))).map
            (fun p => p.2.zone_io_util)).sum) ∧
      (zfs_zone_wait_adjust now g zones).1.zi_active =
        (((zfs_zone_wait_adjust now g zones).2.2.countP
          (fun z => decide (z.zone_io_util > 0)) : Nat) : Int) ∧
      (zfs_zone_wait_adjust now g zones).1.zi_avgutil =
        (if (zfs_zone_wait_adjust now g zones).1.zi_active > 0 then
          (zfs_zone_wait_adjust now g zones).1.zi_totutil /
            (zfs_zone_wait_adjust now g zones).1.zi_active.toNat
        else 0) := by
  have hst := zfs_zone_wait_adjust_stats now g zones
  have hskip : ∀ p ∈ List.zip zones (zfs_zone_wait_adjust now g zones).2.2,
      (p.1.zone_id = GLOBAL_ZONEID ∨ zone_estimates now p.1 = (0, 0, 0)) →
        p.2.zone_io_util = 0 := by
    intro p hp h
    rw [(zfs_zone_wait_adjust_pair now g zones p hp).2, delay_cb_util]
    exact calculate_cb_skipped _ _ h
  have hsum : (((List.zip zones (zfs_zone_wait_adjust now g zones).2.2).filter
      (fun p => !decide (p.1.zone_id = GLOBAL_ZONEID ∨
        zone_estimates now p.1 = (0, 0, 0)))).map (fun p => p.2.zone_io_util)).sum =
      ((zfs_zone_wait_adjust now g zones).2.2.map (fun z => z.zone_io_util)).sum := by
    rw [sum_filter_of_zero (fun p : zone_t × zone_t => p.2.zone_io_util) _ _
      (fun p hp hq => hskip p hp (by
        by_contra hc
        simp only [hc, decide_False, Bool.not_false] at hq
        exact absurd hq (by decide)))]
    have h2 : (List.zip zones (zfs_zone_wait_adjust now g zones).2.2).map
        (fun p => p.2.zone_io_util) =
        ((List.zip zones (zfs_zone_wait_adjust now g zones).2.2).map Prod.snd).map
          (fun z => z.zone_io_util) := by
      rw [List.map_map]
      rfl
    rw [h2]
    congr 2
    conv_lhs => rw [zfs_zone_wait_adjust_eq]
    conv_rhs => rw [zfs_zone_wait_adjust_eq]
    exact map_snd_zip_map _ zones
  refine ⟨zfs_zone_wait_adjust_length now g zones, hskip, ?_, ?_, hst.2.1, hst.2.2⟩
  · rw [hsum]
    exact hst.1
  · intro hl
    rw [hsum, hst.1]
    apply Nat.mod_eq_of_lt
    apply util_sum_lt
    · intro z hz
      obtain ⟨z0, _, rfl⟩ := zfs_zone_wait_adjust_mem now g zones z hz
      rw [delay_cb_util]
      exact calculate_cb_util_lt _ _
    · rw [zfs_zone_wait_adjust_length]
      exact hl

/-- The global zone with 100 reads, an idle zone, and two reading zones, 1.5
seconds after boot: the total is 110000000, two zones are active and the average
is 55000000; the global zone and the idle zone hold 0. -/
theorem first_pass_aggregate_witness :
    (zfs_zone_wait_adjust 1500000 initial_globals
        [{ new_zone 0 with rd_ops := ⟨0, 100, 0⟩ }, new_zone 3,
          { new_zone 1 with rd_ops := ⟨0, 100, 0⟩ },
          { new_zone 2 with rd_ops := ⟨0, 10, 0⟩ }]).1 =
        { zi_now := 1500000, zi_avgrlat := 1000, zi_avgwlat := 10, zi_totutil := 110000000,
          zi_avgutil := 55000000, zi_active := 2 } ∧
      (zfs_zone_wait_adjust 1500000 initial_globals
        [{ new_zone 0 with rd_ops := ⟨0, 100, 0⟩ }, new_zone 3,
          { new_zone 1 with rd_ops := ⟨0, 100, 0⟩ },
          { new_zone 2 with rd_ops := ⟨0, 10, 0⟩ }]).2.2.map (fun z => z.zone_io_util) =
        [0, 0, 100000000, 10000000] ∧
      (zfs_zone_wait_adjust 1500000 initial_globals
        [{ new_zone 0 with rd_ops := ⟨0, 100, 0⟩ }, new_zone 3,
          { new_zone 1 with rd_ops := ⟨0, 100, 0⟩ },
          { new_zone 2 with rd_ops := ⟨0, 10, 0⟩ }]).1.zi_totutil =
        (((List.zip [{ new_zone 0 with rd_ops := ⟨0, 100, 0⟩ }, new_zone 3,
              { new_zone 1 with rd_ops := ⟨0, 100, 0⟩ },
              { new_zone 2 with rd_ops := ⟨0, 10, 0⟩ }]
            (zfs_zone_wait_adjust 1500000 initial_globals
              [{ new_zone 0 with rd_ops := ⟨0, 100, 0⟩ }, new_zone 3,
                { new_zone 1 with rd_ops := ⟨0, 100, 0⟩ },
                { new_zone 2 with rd_ops := ⟨0, 10, 0⟩ }]).2.2).filter
            (fun p => !decide (p.1.zone_id = GLOBAL_ZONEID ∨
              zone_estimates 1500000 p.1 = (0, 0, 0)))).map
          (fun p => p.2.zone_io_util)).sum :=
  ⟨by decide, by decide,
    (first_pass_aggregate 1500000 initial_globals
      [{ new_zone 0 with rd_ops := ⟨0, 100, 0⟩ }, new_zone 3,
        { new_zone 1 with rd_ops := ⟨0, 100, 0⟩ },
        { new_zone 2 with rd_ops := ⟨0, 10, 0⟩ }]).2.2.2.1 (by decide)⟩

/-- C13: ceiling hold.  With the ceiling fixed and any step, in particular a step
of at least 1 (both 16-bit unsigned), starting from `io_delay = 0`, after `n` consecutive
re-evaluations in each of which the zone has `io_util > avg_util` and
`active > 1`, `io_delay = min(n * delay_step, delay_ceiling)`; with step 5 and
ceiling 100 this is `5 n` for `n <= 20` and exactly 100 for every `n >= 20`. -/
theorem ceiling_hold (g : zfs_zone_globals) (step : Nat) (z : zone_t) (rs : List reeval_input)
    (hz : z.zone_io_delay = 0) (hs : step < 65536)
    (hc : g.zfs_zone_delay_ceiling < 65536)
    (hrs : ∀ r ∈ rs, r.delay_step = step ∧ r.io_util > r.stats.zi_avgutil ∧
      r.stats.zi_active > 1) :
    (delay_after g z rs).zone_io_delay = min (rs.length * step) g.zfs_zone_delay_ceiling ∧
      (step = 5 → g.zfs_zone_delay_ceiling = 100 →
        (rs.length ≤ 20 → (delay_after g z rs).zone_io_delay = 5 * rs.length) ∧
        (20 ≤ rs.length → (delay_after g z rs).zone_io_delay = 100)) := by
  have h := delay_after_heavy g step rs z (by omega) hc hs hrs
  rw [hz, Nat.zero_add] at h
  refine ⟨h, fun h5 h100 => ?_⟩
  rw [h, h5, h100]
  constructor <;> intro hn <;> omega

/-- Three re-evaluations of a heavy zone among two active ones, under the default
tunables, bring its delay from 0 to 15. -/
theorem ceiling_hold_witness :
    (delay_after initial_globals (new_zone 7)
        [⟨9000, stats_of 5000 2, 5⟩, ⟨9000, stats_of 5000 2, 5⟩,
          ⟨9000, stats_of 5000 2, 5⟩]).zone_io_delay = 15 ∧
      (delay_after initial_globals (new_zone 7)
        [⟨9000, stats_of 5000 2, 5⟩, ⟨9000, stats_of 5000 2, 5⟩,
          ⟨9000, stats_of 5000 2, 5⟩]).zone_io_delay =
        min (3 * 5) initial_globals.zfs_zone_delay_ceiling :=
  ⟨by decide,
    (ceiling_hold initial_globals 5 (new_zone 7)
      [⟨9000, stats_of 5000 2, 5⟩, ⟨9000, stats_of 5000 2, 5⟩, ⟨9000, stats_of 5000 2, 5⟩]
      rfl (by decide) (by decide) (by decide)).1⟩

/-- C14: isolated zones drain.  For a step of at least 1, after a re-evaluation in
which the number of active zones is at most 1, the new `io_delay` of every zone is
strictly less than its old `io_delay`, or both are 0; it is `max(old - step, 0)`,
whatever `io_util` and the ceiling are.  This holds for the delay callback and
for every zone of the list that `zfs_zone_wait_adjust` walks.  A zone whose delay
starts at 0 keeps delay 0 through every such re-evaluation. -/
theorem isolated_zones_drain :
    (∀ (g : zfs_zone_globals) (sp : zoneio_stats_t) (z : zone_t),
      sp.zi_active ≤ 1 → 1 ≤ g.zfs_zone_delay_step →
        ((zfs_zone_wait_adjust_delay_cb g sp z).zone_io_delay < z.zone_io_delay ∨
          ((zfs_zone_wait_adjust_delay_cb g sp z).zone_io_delay = 0 ∧ z.zone_io_delay = 0)) ∧
        (z.zone_io_delay < 65536 →
          ((zfs_zone_wait_adjust_delay_cb g sp z).zone_io_delay : Int) =
            max ((z.zone_io_delay : Int) - g.zfs_zone_delay_step) 0)) ∧
    (∀ (now : Int) (g : zfs_zone_globals) (zones : List zone_t),
      (zfs_zone_wait_adjust now g zones).1.zi_active ≤ 1 → 1 ≤ g.zfs_zone_delay_step →
        ∀ p ∈ List.zip zones (zfs_zone_wait_adjust now g zones).2.2,
          (p.2.zone_io_delay < p.1.zone_io_delay ∨
            (p.2.zone_io_delay = 0 ∧ p.1.zone_io_delay = 0)) ∧
          (p.1.zone_io_delay < 65536 →
            (p.2.zone_io_delay : Int) =
              max ((p.1.zone_io_delay : Int) - g.zfs_zone_delay_step) 0)) ∧
    (∀ (g : zfs_zone_globals) (z : zone_t) (rs : List reeval_input),
      z.zone_io_delay = 0 → (∀ r ∈ rs, r.stats.zi_active ≤ 1) →
        (delay_after g z rs).zone_io_delay = 0) := by
  refine ⟨?_, ?_, fun g z rs hz hrs => delay_after_isolated g rs z hz hrs⟩
  · intro g sp z ha hs
    have h := delay_cb_isolated g sp z ha hs
    refine ⟨h.1, fun hd => ?_⟩
    have := h.2 hd
    omega
  · intro now g zones ha hs p hp
    obtain ⟨_, hp2⟩ := zfs_zone_wait_adjust_pair now g zones p hp
    have h := delay_cb_isolated (get_sys_avg_lat now g).2 (zfs_zone_wait_adjust now g zones).1
      (zfs_zone_wait_adjust_calculate_cb p.1 (first_pass_stats now g)).2.1 ha hs
    rw [← hp2, calculate_cb_delay] at h
    have hstep : (get_sys_avg_lat now g).2.zfs_zone_delay_step = g.zfs_zone_delay_step := rfl
    rw [hstep] at h
    refine ⟨h.1, fun hd => ?_⟩
    have := h.2 hd
    omega

/-- A single reading zone at delay 12 next to the global zone: one zone is
active, and the re-evaluation brings 12 down to 7. -/
theorem isolated_zones_drain_witness :
    (zfs_zone_wait_adjust 1500000 initial_globals
        [new_zone 0, { new_zone 1 with rd_ops := ⟨0, 100, 0⟩, zone_io_delay := 12 }]).1.zi_active
        = 1 ∧
      (zfs_zone_wait_adjust 1500000 initial_globals
        [new_zone 0, { new_zone 1 with rd_ops := ⟨0, 100, 0⟩, zone_io_delay := 12 }]).2.2.map
          (fun z => z.zone_io_delay) = [0, 7] ∧
      (delay_after initial_globals (new_zone 1)
        [⟨9000, stats_of 9000 1, 5⟩, ⟨9000, stats_of 9000 1, 5⟩]).zone_io_delay = 0 :=
  ⟨by decide, by decide,
    isolated_zones_drain.2.2 initial_globals (new_zone 1)
      [⟨9000, stats_of 9000 1, 5⟩, ⟨9000, stats_of 9000 1, 5⟩] rfl (by decide)⟩

theorem delay_cb_at_average (g : zfs_zone_globals) (sp : zoneio_stats_t) (z : zone_t)
    (h : z.zone_io_util = sp.zi_avgutil) (ha : 2 ≤ sp.zi_active) (hd : z.zone_io_delay < 65536) :
    (zfs_zone_wait_adjust_delay_cb g sp z).zone_io_delay = z.zone_io_delay := by
  simp only [zfs_zone_wait_adjust_delay_cb, to_uint16]
  split_ifs <;> omega

theorem delay_cb_above_average (g : zfs_zone_globals) (sp : zoneio_stats_t) (z : zone_t)
    (h : z.zone_io_util > sp.zi_avgutil) (ha : 2 ≤ sp.zi_active) (hd : z.zone_io_delay < 65536)
    (hs : g.zfs_zone_delay_step < 65536) (hc : g.zfs_zone_delay_ceiling < 65536)
    (hlt : z.zone_io_delay < g.zfs_zone_delay_ceiling) :
    (zfs_zone_wait_adjust_delay_cb g sp z).zone_io_delay =
      min (z.zone_io_delay + g.zfs_zone_delay_step) g.zfs_zone_delay_ceiling := by
  simp only [zfs_zone_wait_adjust_delay_cb, to_uint16]
  split_ifs <;> omega

theorem delay_cb_not_above_average (g : zfs_zone_globals) (sp : zoneio_stats_t) (z : zone_t)
    (h : z.zone_io_util ≤ sp.zi_avgutil) :
    (zfs_zone_wait_adjust_delay_cb g sp z).zone_io_delay ≤ z.zone_io_delay := by
  simp only [zfs_zone_wait_adjust_delay_cb, to_uint16]
  split_ifs <;> omega

/-- After a re-evaluation with at least one active zone the average is the total
divided by the number of zones with a positive utilization. -/
theorem zfs_zone_wait_adjust_avg (now : Int) (g : zfs_zone_globals) (zones : List zone_t)
    (hn : 1 ≤ (zfs_zone_wait_adjust now g zones).1.zi_active)
    (hb : ((zfs_zone_wait_adjust now g zones).2.2.map (fun z => z.zone_io_util)).sum
      < 18446744073709551616) :
    0 < ((zfs_zone_wait_adjust now g zones).2.2.map (fun z => z.zone_io_util)).countP
        (fun x => decide (x > 0)) ∧
      ((zfs_zone_wait_adjust now g zones).1.zi_active : Int) =
        ((((zfs_zone_wait_adjust now g zones).2.2.map (fun z => z.zone_io_util)).countP
          (fun x => decide (x > 0)) : Nat) : Int) ∧
      (zfs_zone_wait_adjust now g zones).1.zi_avgutil =
        ((zfs_zone_wait_adjust now g zones).2.2.map (fun z => z.zone_io_util)).sum /
          ((zfs_zone_wait_adjust now g zones).2.2.map (fun z => z.zone_io_util)).countP
            (fun x => decide (x > 0)) := by
  obtain ⟨h1, h2, h3⟩ := zfs_zone_wait_adjust_stats now g zones
  rw [countP_util_map]
  rw [h2] at hn
  refine ⟨by omega, h2, ?_⟩
  rw [h3, if_pos (by omega), h1, Nat.mod_eq_of_lt hb, h2, Int.toNat_ofNat]

/-- C15: symmetric load is not throttled.  For every re-evaluation in which
`n >= 2` zones are active and all active zones have the same utilization `u`
(positive, as they are active; with `n * u < 2^64`), `zfs_zone_wait_adjust` computes `avg_util = u` and leaves
the (16-bit) `io_delay` of every active zone unchanged, so delays that are 0
remain 0. -/
theorem symmetric_load_not_throttled (now : Int) (g : zfs_zone_globals) (zones : List zone_t)
    (u : Nat)
    (hn : 2 ≤ (zfs_zone_wait_adjust now g zones).1.zi_active)
    (hall : ∀ z ∈ (zfs_zone_wait_adjust now g zones).2.2, z.zone_io_util > 0 → z.zone_io_util = u)
    (hb : (zfs_zone_wait_adjust now g zones).1.zi_active.toNat * u < 18446744073709551616)
    (hd : ∀ z ∈ zones, z.zone_io_delay < 65536) :
    (zfs_zone_wait_adjust now g zones).1.zi_avgutil = u ∧
      ∀ p ∈ List.zip zones (zfs_zone_wait_adjust now g zones).2.2,
        p.2.zone_io_util > 0 → p.2.zone_io_delay = p.1.zone_io_delay := by
  have hsum := sum_eq_count_mul
    ((zfs_zone_wait_adjust now g zones).2.2.map (fun z => z.zone_io_util)) u
    (by
      intro x hx h0
      obtain ⟨z, hz, rfl⟩ := List.mem_map.1 hx
      exact hall z hz h0)
  have hact := (zfs_zone_wait_adjust_stats now g zones).2.1
  rw [← countP_util_map] at hact
  have hb' : ((zfs_zone_wait_adjust now g zones).2.2.map (fun z => z.zone_io_util)).sum
      < 18446744073709551616 := by
    rw [hsum]
    rw [hact, Int.toNat_ofNat] at hb
    exact hb
  obtain ⟨hpos, _, havg⟩ := zfs_zone_wait_adjust_avg now g zones (by omega) hb'
  have havg' : (zfs_zone_wait_adjust now g zones).1.zi_avgutil = u := by
    rw [havg, hsum]
    exact Nat.mul_div_cancel_left u hpos
  refine ⟨havg', fun p hp hpu => ?_⟩
  obtain ⟨hp1, hp2⟩ := zfs_zone_wait_adjust_pair now g zones p hp
  have hmem : p.2 ∈ (zfs_zone_wait_adjust now g zones).2.2 := (List.of_mem_zip hp).2
  have hutil := hall p.2 hmem hpu
  rw [hp2, delay_cb_util] at hutil
  rw [hp2]
  rw [delay_cb_at_average _ _ _ (by rw [hutil, havg']) hn
    (by rw [calculate_cb_delay]; exact hd p.1 hp1), calculate_cb_delay]

/-- Two zones with 100 reads each in the current cycle, at delays 0 and 30: both
utilizations are 100000000, so is the average, and both delays stay. -/
theorem symmetric_load_not_throttled_witness :
    (zfs_zone_wait_adjust 1500000 initial_globals
        [{ new_zone 1 with rd_ops := ⟨0, 100, 0⟩ },
          { new_zone 2 with rd_ops := ⟨0, 100, 0⟩, zone_io_delay := 30 }]).2.2.map
          (fun z => (z.zone_io_util, z.zone_io_delay)) = [(100000000, 0), (100000000, 30)] ∧
      (zfs_zone_wait_adjust 1500000 initial_globals
        [{ new_zone 1 with rd_ops := ⟨0, 100, 0⟩ },
          { new_zone 2 with rd_ops := ⟨0, 100, 0⟩, zone_io_delay := 30 }]).1.zi_avgutil
        = 100000000 :=
  ⟨by decide,
    (symmetric_load_not_throttled 1500000 initial_globals
      [{ new_zone 1 with rd_ops := ⟨0, 100, 0⟩ },
        { new_zone 2 with rd_ops := ⟨0, 100, 0⟩, zone_io_delay := 30 }] 100000000
      (by decide) (by decide) (by decide) (by decide)).1⟩

/-- C16: asymmetric load throttles the heavy zone and not the light one.  For
every re-evaluation with at least two active zones whose utilizations are not all
equal (total below 2^64, delays, step and ceiling 16-bit unsigned), a zone with
the largest utilization has `io_util > avg_util`, so its delay becomes
`min(d + step, ceiling)` whenever `d < ceiling`, and a zone whose utilization is
at most that of every active zone has `io_util <= avg_util`, so its delay is not
increased (a delay of 0 stays 0). -/
theorem asymmetric_load_throttles_heavy (now : Int) (g : zfs_zone_globals)
    (zones : List zone_t)
    (hn : 2 ≤ (zfs_zone_wait_adjust now g zones).1.zi_active)
    (hne : ∃ a ∈ (zfs_zone_wait_adjust now g zones).2.2,
      ∃ b ∈ (zfs_zone_wait_adjust now g zones).2.2,
        0 < a.zone_io_util ∧ 0 < b.zone_io_util ∧ a.zone_io_util ≠ b.zone_io_util)
    (hb : ((zfs_zone_wait_adjust now g zones).2.2.map (fun z => z.zone_io_util)).sum
      < 18446744073709551616)
    (hd : ∀ z ∈ zones, z.zone_io_delay < 65536) (hs : g.zfs_zone_delay_step < 65536)
    (hc : g.zfs_zone_delay_ceiling < 65536) :
    ∀ p ∈ List.zip zones (zfs_zone_wait_adjust now g zones).2.2,
      ((∀ q ∈ (zfs_zone_wait_adjust now g zones).2.2, q.zone_io_util ≤ p.2.zone_io_util) →
        p.2.zone_io_util > (zfs_zone_wait_adjust now g zones).1.zi_avgutil ∧
        (p.1.zone_io_delay < g.zfs_zone_delay_ceiling →
          p.2.zone_io_delay =
            min (p.1.zone_io_delay + g.zfs_zone_delay_step) g.zfs_zone_delay_ceiling)) ∧
      ((∀ q ∈ (zfs_zone_wait_adjust now g zones).2.2,
            0 < q.zone_io_util → p.2.zone_io_util ≤ q.zone_io_util) →
        p.2.zone_io_util ≤ (zfs_zone_wait_adjust now g zones).1.zi_avgutil ∧
        p.2.zone_io_delay ≤ p.1.zone_io_delay ∧
        (p.1.zone_io_delay = 0 → p.2.zone_io_delay = 0)) := by
  intro p hp
  obtain ⟨hpos, _, havg⟩ := zfs_zone_wait_adjust_avg now g zones (by omega) hb
  obtain ⟨hp1, hp2⟩ := zfs_zone_wait_adjust_pair now g zones p hp
  have hutil : p.2.zone_io_util =
      (zfs_zone_wait_adjust_calculate_cb p.1 (first_pass_stats now g)).2.1.zone_io_util := by
    rw [hp2, delay_cb_util]
  have hdel := hd p.1 hp1
  constructor
  · intro hmax
    have hlt : ((zfs_zone_wait_adjust now g zones).2.2.map (fun z => z.zone_io_util)).sum <
        ((zfs_zone_wait_adjust now g zones).2.2.map (fun z => z.zone_io_util)).countP
          (fun x => decide (x > 0)) * p.2.zone_io_util := by
      apply sum_lt_count_mul
      · intro x hx
        obtain ⟨z, hz, rfl⟩ := List.mem_map.1 hx
        exact hmax z hz
      · obtain ⟨a, ha, b, hb', ha0, hb0, hab⟩ := hne
        have h1 := hmax a ha
        have h2 := hmax b hb'
        by_cases hA : a.zone_io_util < p.2.zone_io_util
        · exact ⟨a.zone_io_util, List.mem_map.2 ⟨a, ha, rfl⟩, ha0, hA⟩
        · exact ⟨b.zone_io_util, List.mem_map.2 ⟨b, hb', rfl⟩, hb0, by omega⟩
    have habove : p.2.zone_io_util > (zfs_zone_wait_adjust now g zones).1.zi_avgutil := by
      rw [havg]
      exact (Nat.div_lt_iff_lt_mul hpos).2 (by rw [Nat.mul_comm]; exact hlt)
    refine ⟨habove, fun hlt' => ?_⟩
    rw [hutil] at habove
    rw [hp2]
    have hs1 : (get_sys_avg_lat now g).2.zfs_zone_delay_step < 65536 := hs
    have hc1 : (get_sys_avg_lat now g).2.zfs_zone_delay_ceiling < 65536 := hc
    rw [delay_cb_above_average (get_sys_avg_lat now g).2 _ _ habove hn
      (by rw [calculate_cb_delay]; exact hdel) hs1 hc1
      (by rw [calculate_cb_delay]; exact hlt'), calculate_cb_delay]
    rfl
  · intro hmin
    have hle : ((zfs_zone_wait_adjust now g zones).2.2.map (fun z => z.zone_io_util)).countP
          (fun x => decide (x > 0)) * p.2.zone_io_util ≤
        ((zfs_zone_wait_adjust now g zones).2.2.map (fun z => z.zone_io_util)).sum := by
      apply count_mul_le_sum
      intro x hx hx0
      obtain ⟨z, hz, rfl⟩ := List.mem_map.1 hx
      exact hmin z hz hx0
    have hbelow : p.2.zone_io_util ≤ (zfs_zone_wait_adjust now g zones).1.zi_avgutil := by
      rw [havg]
      exact (Nat.le_div_iff_mul_le hpos).2 (by rw [Nat.mul_comm]; exact hle)
    have hnot := delay_cb_not_above_average (get_sys_avg_lat now g).2
      (zfs_zone_wait_adjust now g zones).1
      (zfs_zone_wait_adjust_calculate_cb p.1 (first_pass_stats now g)).2.1
      (by rw [← hutil]; exact hbelow)
    rw [← hp2, calculate_cb_delay] at hnot
    exact ⟨hbelow, hnot, fun hz => by omega⟩

/-- A zone with 1000 reads and a zone with 100 reads in the current cycle, both
at delay 0 under the default tunables: the average is 550000000, the heavy zone
is above it and goes to delay 5, the light one stays at 0. -/
theorem asymmetric_load_throttles_heavy_witness :
    (zfs_zone_wait_adjust 1500000 initial_globals
        [{ new_zone 1 with rd_ops := ⟨0, 1000, 0⟩ },
          { new_zone 2 with rd_ops := ⟨0, 100, 0⟩ }]).2.2.map
          (fun z => (z.zone_io_util, z.zone_io_delay)) = [(1000000000, 5), (100000000, 0)] ∧
      (zfs_zone_wait_adjust 1500000 initial_globals
        [{ new_zone 1 with rd_ops := ⟨0, 1000, 0⟩ },
          { new_zone 2 with rd_ops := ⟨0, 100, 0⟩ }]).1.zi_avgutil = 550000000 ∧
      (1000000000 : Nat) >
        (zfs_zone_wait_adjust 1500000 initial_globals
          [{ new_zone 1 with rd_ops := ⟨0, 1000, 0⟩ },
            { new_zone 2 with rd_ops := ⟨0, 100, 0⟩ }]).1.zi_avgutil :=
  ⟨by decide, by decide,
    ((asymmetric_load_throttles_heavy 1500000 initial_globals
      [{ new_zone 1 with rd_ops := ⟨0, 1000, 0⟩ },
        { new_zone 2 with rd_ops := ⟨0, 100, 0⟩ }]
      (by decide) (by decide) (by decide) (by decide) (by decide) (by decide)
      ({ new_zone 1 with rd_ops := ⟨0, 1000, 0⟩ },
        { new_zone 1 with
          rd_ops := ⟨0, 1000, 0⟩, zone_io_util := 1000000000, zone_io_delay := 5 })
      (by decide)).1 (by decide)).1⟩

theorem zone_find_by_id_some (zones : List zone_t) (id : Int) (z : zone_t)
    (h : zone_find_by_id zones id = some z) : z ∈ zones ∧ z.zone_id = id := by
  unfold zone_find_by_id at h
  exact ⟨List.mem_of_find?_eq_some h, by simpa using List.find?_some h⟩

theorem mem_zone_store (id : Int) (znew : zone_t) (zones : List zone_t) (z : zone_t)
    (h : z ∈ zone_store id znew zones) : z = znew ∨ z ∈ zones := by
  induction zones with
  | nil => simp [zone_store] at h
  | cons a as ih =>
    simp only [zone_store] at h
    split_ifs at h
    · rcases List.mem_cons.1 h with h | h
      · exact Or.inl h
      · exact Or.inr (List.mem_cons_of_mem _ h)
    · rcases List.mem_cons.1 h with h | h
      · exact Or.inr (h ▸ List.mem_cons_self _ _)
      · rcases ih h with h | h
        · exact Or.inl h
        · exact Or.inr (List.mem_cons_of_mem _ h)

/-- Storing a zone that has the utilization and the delay of the zone found under
the identifier leaves the utilizations and delays of the list as they are. -/
theorem zone_store_util_delay (id : Int) (zold znew : zone_t) (zones : List zone_t)
    (hf : zone_find_by_id zones id = some zold)
    (hu : znew.zone_io_util = zold.zone_io_util)
    (hd : znew.zone_io_delay = zold.zone_io_delay) :
    (zone_store id znew zones).map (fun z => (z.zone_io_util, z.zone_io_delay)) =
      zones.map (fun z => (z.zone_io_util, z.zone_io_delay)) := by
  induction zones with
  | nil => simp [zone_find_by_id] at hf
  | cons a as ih =>
    simp only [zone_find_by_id, List.find?_cons] at hf
    by_cases ha : a.zone_id = id
    · simp only [ha, decide_True] at hf
      have : a = zold := by simpa using hf
      subst this
      simp [zone_store, ha, hu, hd]
    · simp only [ha, decide_False] at hf
      simp only [zone_store, ha, if_false, List.map_cons]
      rw [ih hf]

theorem add_zone_iop_frame (z : zone_t) (now : Int) (op : zfs_zone_iop_type_t) :
    (add_zone_iop z now op).zone_id = z.zone_id ∧
      (add_zone_iop z now op).zone_io_util = z.zone_io_util ∧
      (add_zone_iop z now op).zone_io_delay = z.zone_io_delay := by
  cases op <;> exact ⟨rfl, rfl, rfl⟩

theorem add_sys_iop_frame (g : zfs_zone_globals) (now : Int) (op : zfs_zone_iop_type_t)
    (lat : Int) :
    (add_sys_iop g now op lat).zfs_zone_delay_enable = g.zfs_zone_delay_enable ∧
      (add_sys_iop g now op lat).zfs_zone_last_checked = g.zfs_zone_last_checked ∧
      (add_sys_iop g now op lat).zfs_zone_delay_step = g.zfs_zone_delay_step ∧
      (add_sys_iop g now op lat).zfs_zone_delay_ceiling = g.zfs_zone_delay_ceiling := by
  cases op <;> exact ⟨rfl, rfl, rfl, rfl⟩

/-- The accounting part of the throttle is `zone_store` of a zone with the
identifier, utilization and delay of the caller, and it leaves the tunables and the
time of the last re-evaluation as they are. -/
theorem logical_op_account_frame (s : throttle_state) (zonep : zone_t) (now : Int)
    (type : zfs_zone_iop_type_t) (size : Nat) :
    (∃ znew : zone_t, (logical_op_account s zonep now type size).zones =
        zone_store zonep.zone_id znew s.zones ∧ znew.zone_id = zonep.zone_id ∧
        znew.zone_io_util = zonep.zone_io_util ∧ znew.zone_io_delay = zonep.zone_io_delay) ∧
      (logical_op_account s zonep now type size).globals.zfs_zone_delay_enable =
        s.globals.zfs_zone_delay_enable ∧
      (logical_op_account s zonep now type size).globals.zfs_zone_last_checked =
        s.globals.zfs_zone_last_checked := by
  unfold logical_op_account
  by_cases ht : type = .ZFS_ZONE_IOP_LOGICAL_WRITE
  · subst ht
    rw [if_pos rfl]
    exact ⟨⟨_, rfl, rfl, rfl, rfl⟩, rfl, rfl⟩
  · rw [if_neg ht]
    exact ⟨⟨_, rfl, rfl, rfl, rfl⟩, rfl, rfl⟩

/-- C18: re-evaluation gating in `zfs_zone_io_throttle`, for a call by a live zone.
After the accounting of the operation, which touches neither the tunables nor
`last_checked`, the full re-evaluation runs, with `last_checked` set to `now`,
exactly when `delay_enable` is true and `now - last_checked > 100000`.  When
`delay_enable` is false, or when `now - last_checked <= 100000`, the call ends in
the state that the accounting left: `last_checked` and the `io_util` and
`io_delay` of every zone are those before the call.  When disabled no delay is
applied to the caller. -/
theorem throttle_gating (s : throttle_state) (curzone : Int) (now : Int)
    (type : zfs_zone_iop_type_t) (size : Nat) (zonep : zone_t)
    (hz : zone_find_by_id s.zones curzone = some zonep) :
    (s.globals.zfs_zone_delay_enable = true ∧
        now - s.globals.zfs_zone_last_checked > 100000 →
      (zfs_zone_io_throttle s curzone now type size).1 =
        { globals :=
            (zfs_zone_wait_adjust now
              { (logical_op_account s zonep now type size).globals with
                zfs_zone_last_checked := now }
              (logical_op_account s zonep now type size).zones).2.1,
          zones :=
            (zfs_zone_wait_adjust now
              { (logical_op_account s zonep now type size).globals with
                zfs_zone_last_checked := now }
              (logical_op_account s zonep now type size).zones).2.2 } ∧
      (zfs_zone_io_throttle s curzone now type size).1.globals.zfs_zone_last_checked = now) ∧
    (s.globals.zfs_zone_delay_enable = false ∨
        now - s.globals.zfs_zone_last_checked ≤ 100000 →
      (zfs_zone_io_throttle s curzone now type size).1 = logical_op_account s zonep now type size ∧
      (zfs_zone_io_throttle s curzone now type size).1.globals.zfs_zone_last_checked =
        s.globals.zfs_zone_last_checked ∧
      (zfs_zone_io_throttle s curzone now type size).1.zones.map
          (fun z => (z.zone_io_util, z.zone_io_delay)) =
        s.zones.map (fun z => (z.zone_io_util, z.zone_io_delay))) ∧
    (s.globals.zfs_zone_delay_enable = false →
      (zfs_zone_io_throttle s curzone now type size).2 = 0) := by
  obtain ⟨⟨znew, hzones, hid, hutil, hdelay⟩, hen, hlc⟩ :=
    logical_op_account_frame s zonep now type size
  have hcur : zonep.zone_id = curzone := (zone_find_by_id_some _ _ _ hz).2
  have hfst : ∀ (a : throttle_state) (o : Option zone_t),
      (match o with
        | none => (a, 0)
        | some zonep =>
          if to_uint16 zonep.zone_io_delay > 0 then (a, to_uint16 zonep.zone_io_delay)
          else (a, 0) : throttle_state × Nat).1 = a := by
    intro a o
    cases o with
    | none => rfl
    | some z => simp only; split_ifs <;> rfl
  refine ⟨?_, ?_, ?_⟩
  · rintro ⟨he, hdue⟩
    have hdue' : now - (logical_op_account s zonep now type size).globals.zfs_zone_last_checked
        > ZONE_ZFS_100MS := by
      rw [hlc]
      exact hdue
    have he' : ¬ (logical_op_account s zonep now type size).globals.zfs_zone_delay_enable
        = false := by
      rw [hen, he]
      decide
    have hres : (zfs_zone_io_throttle s curzone now type size).1 =
        { globals :=
            (zfs_zone_wait_adjust now
              { (logical_op_account s zonep now type size).globals with
                zfs_zone_last_checked := now }
              (logical_op_account s zonep now type size).zones).2.1,
          zones :=
            (zfs_zone_wait_adjust now
              { (logical_op_account s zonep now type size).globals with
                zfs_zone_last_checked := now }
              (logical_op_account s zonep now type size).zones).2.2 } := by
      simp only [zfs_zone_io_throttle, hz, he', if_false, hdue', if_true]
      exact hfst _ _
    refine ⟨hres, ?_⟩
    rw [hres, zfs_zone_wait_adjust_eq]
    rfl
  · intro h
    have hres : (zfs_zone_io_throttle s curzone now type size).1 =
        logical_op_account s zonep now type size := by
      by_cases he : (logical_op_account s zonep now type size).globals.zfs_zone_delay_enable
          = false
      · simp only [zfs_zone_io_throttle, hz, he, if_true]
      · have hdue' : ¬ now -
            (logical_op_account s zonep now type size).globals.zfs_zone_last_checked
              > ZONE_ZFS_100MS := by
          rw [hlc]
          rcases h with h | h
          · rw [hen] at he
            exact absurd h he
          · simp only [ZONE_ZFS_100MS]
            omega
        simp only [zfs_zone_io_throttle, hz, he, if_false, hdue']
        exact hfst _ _
    refine ⟨hres, by rw [hres, hlc], ?_⟩
    rw [hres, hzones]
    exact zone_store_util_delay _ zonep znew s.zones (by rw [hcur]; exact hz) hutil hdelay
  · intro he
    have he' : (logical_op_account s zonep now type size).globals.zfs_zone_delay_enable
        = false := by
      rw [hen, he]
    simp only [zfs_zone_io_throttle, hz, he', if_true]

/-- A live zone at delay 20 issues a logical write 50 ms after boot: no
re-evaluation is due, the write is counted, utilizations and delays stay and the
caller waits 20; 1.5 s after boot the re-evaluation runs and stamps
`last_checked`. -/
theorem throttle_gating_witness :
    zone_find_by_id [new_zone 0, { new_zone 1 with zone_io_delay := 20 }] 1 =
        some { new_zone 1 with zone_io_delay := 20 } ∧
      (zfs_zone_io_throttle ⟨initial_globals, [new_zone 0, { new_zone 1 with zone_io_delay := 20 }]⟩
        1 50000 .ZFS_ZONE_IOP_LOGICAL_WRITE 512) =
        (⟨initial_globals,
          [new_zone 0,
            { new_zone 1 with
              zone_io_delay := 20, lwr_ops := ⟨0, 1, 0⟩,
              zone_io_logwrite_ops := 1, zone_io_logwrite_bytes := 512 }]⟩, 20) ∧
      (zfs_zone_io_throttle ⟨initial_globals, [new_zone 0, { new_zone 1 with zone_io_delay := 20 }]⟩
        1 1500000 .ZFS_ZONE_IOP_LOGICAL_WRITE 512).1.globals.zfs_zone_last_checked = 1500000 :=
  ⟨by decide, by decide,
    ((throttle_gating ⟨initial_globals, [new_zone 0, { new_zone 1 with zone_io_delay := 20 }]⟩
      1 1500000 .ZFS_ZONE_IOP_LOGICAL_WRITE 512 { new_zone 1 with zone_io_delay := 20 }
      (by decide)).1 ⟨by decide, by decide⟩).2⟩

theorem to_int_of_range (x : Int) (h0 : -2147483648 ≤ x) (h1 : x < 2147483648) :
    to_int x = x := by
  unfold to_int
  omega

/-- With the throttle disabled `zfs_zone_zio_done` returns at once. -/
theorem zio_done_disabled (s : throttle_state) (zp : zio_t) (now : Int)
    (he : s.globals.zfs_zone_delay_enable = false) : zfs_zone_zio_done s zp now = s := by
  simp [zfs_zone_zio_done, he]

/-- For a zone that is gone `zfs_zone_zio_done` changes nothing. -/
theorem zio_done_gone (s : throttle_state) (zp : zio_t) (now : Int)
    (hz : zone_find_by_id s.zones zp.io_zoneid = none) : zfs_zone_zio_done s zp now = s := by
  simp only [zfs_zone_zio_done, hz]
  split_ifs <;> rfl

/-- The completion of a read of a live zone with the throttle enabled: the sample
is the latency as `add_sys_iop` receives it, converted to `int`. -/
theorem zio_done_read (s : throttle_state) (zp : zio_t) (now : Int) (zonep : zone_t)
    (he : s.globals.zfs_zone_delay_enable = true)
    (hz : zone_find_by_id s.zones zp.io_zoneid = some zonep)
    (ht : zp.io_type = .ZIO_TYPE_READ) :
    zfs_zone_zio_done s zp now =
      { globals :=
          { s.globals with
            rd_lat :=
              { (compute_new_sys_avg now s.globals.rd_lat).2 with
                cycle_cnt := (compute_new_sys_avg now s.globals.rd_lat).2.cycle_cnt + 1,
                cycle_lat := (compute_new_sys_avg now s.globals.rd_lat).2.cycle_lat +
                  to_int (now - zp.io_start) } },
        zones :=
          zone_store zp.io_zoneid
            { zonep with
              rd_ops :=
                { (compute_historical_zone_cnt now zonep.rd_ops).2 with
                  cycle_cnt := (compute_historical_zone_cnt now zonep.rd_ops).2.cycle_cnt + 1 },
              zone_io_phyread_ops := add_64 zonep.zone_io_phyread_ops 1,
              zone_io_phyread_bytes := add_64 zonep.zone_io_phyread_bytes zp.io_size }
            s.zones } := by
  simp [zfs_zone_zio_done, he, hz, ht, add_iop, add_zone_iop, add_sys_iop]

/-- The completion of a write of a live zone with the throttle enabled. -/
theorem zio_done_write (s : throttle_state) (zp : zio_t) (now : Int) (zonep : zone_t)
    (he : s.globals.zfs_zone_delay_enable = true)
    (hz : zone_find_by_id s.zones zp.io_zoneid = some zonep)
    (ht : zp.io_type = .ZIO_TYPE_WRITE) :
    zfs_zone_zio_done s zp now =
      { globals :=
          { s.globals with
            wr_lat :=
              { (compute_new_sys_avg now s.globals.wr_lat).2 with
                cycle_cnt := (compute_new_sys_avg now s.globals.wr_lat).2.cycle_cnt + 1,
                cycle_lat := (compute_new_sys_avg now s.globals.wr_lat).2.cycle_lat +
                  to_int (now - zp.io_start) } },
        zones :=
          zone_store zp.io_zoneid
            { zonep with
              wr_ops :=
                { (compute_historical_zone_cnt now zonep.wr_ops).2 with
                  cycle_cnt := (compute_historical_zone_cnt now zonep.wr_ops).2.cycle_cnt + 1 },
              zone_io_phywrite_ops := add_64 zonep.zone_io_phywrite_ops 1,
              zone_io_phywrite_bytes := add_64 zonep.zone_io_phywrite_bytes zp.io_size }
            s.zones } := by
  simp [zfs_zone_zio_done, he, hz, ht, add_iop, add_zone_iop, add_sys_iop]

/-- C19 fails as stated: with `zfs_zone_delay_enable` false the completion of a
read of a live zone changes nothing, neither counter nor aggregator nor total,
where the same completion with the throttle enabled records the read, a sample
of latency 500 and the totals.  With the throttle enabled, a read started at 0
and completed at 3000000000 adds the sample -1294967296, the latency as the
parameter `int lat` of `add_sys_iop` holds it, not 3000000000. -/
theorem zio_done_disabled_counterexample :
    zone_find_by_id [new_zone 0, new_zone 1] 1 = some (new_zone 1) ∧
      zfs_zone_zio_done
          ⟨{ initial_globals with zfs_zone_delay_enable := false }, [new_zone 0, new_zone 1]⟩
          ⟨1, 100, .ZIO_TYPE_READ, 4096⟩ 600 =
        ⟨{ initial_globals with zfs_zone_delay_enable := false }, [new_zone 0, new_zone 1]⟩ ∧
      zfs_zone_zio_done ⟨initial_globals, [new_zone 0, new_zone 1]⟩
          ⟨1, 100, .ZIO_TYPE_READ, 4096⟩ 600 =
        ⟨{ initial_globals with rd_lat := ⟨0, 1, 500, 0⟩ },
          [new_zone 0,
            { new_zone 1 with
              rd_ops := ⟨0, 1, 0⟩, zone_io_phyread_ops := 1,
              zone_io_phyread_bytes := 4096 }]⟩ ∧
      (zfs_zone_zio_done ⟨initial_globals, [new_zone 0, new_zone 1]⟩
          ⟨1, 0, .ZIO_TYPE_READ, 4096⟩ 3000000000).globals.rd_lat =
        ⟨3000000000, 1, -1294967296, 0⟩ :=
  ⟨by decide, by decide, by decide, by decide⟩

/-- C19, amended: for every completed I/O whose zone still exists, when
`zfs_zone_delay_enable` is true and the latency `now - io_start` fits the `int`
it is passed in (`-2^31 <= now - io_start < 2^31`), `zfs_zone_zio_done` records
exactly one operation in the read counter of the zone if the I/O is a read and in
its write counter otherwise, adds one sample of latency `now - io_start` to the
matching system latency aggregator, and adds 1 and `io_size` to the matching
physical operation and byte totals of the zone; nothing else changes.  When
`zfs_zone_delay_enable` is false it changes no state.  If the zone no longer
exists, no state changes, whatever the tunables. -/
theorem zio_done_accounting (s : throttle_state) (zp : zio_t) (now : Int) :
    (∀ zonep : zone_t, s.globals.zfs_zone_delay_enable = true →
      zone_find_by_id s.zones zp.io_zoneid = some zonep →
      -2147483648 ≤ now - zp.io_start → now - zp.io_start < 2147483648 →
        (zp.io_type = .ZIO_TYPE_READ →
          zfs_zone_zio_done s zp now =
            { globals :=
                { s.globals with
                  rd_lat :=
                    { (compute_new_sys_avg now s.globals.rd_lat).2 with
                      cycle_cnt := (compute_new_sys_avg now s.globals.rd_lat).2.cycle_cnt + 1,
                      cycle_lat := (compute_new_sys_avg now s.globals.rd_lat).2.cycle_lat +
                        (now - zp.io_start) } },
              zones :=
                zone_store zp.io_zoneid
                  { zonep with
                    rd_ops :=
                      { (compute_historical_zone_cnt now zonep.rd_ops).2 with
                        cycle_cnt :=
                          (compute_historical_zone_cnt now zonep.rd_ops).2.cycle_cnt + 1 },
                    zone_io_phyread_ops := add_64 zonep.zone_io_phyread_ops 1,
                    zone_io_phyread_bytes := add_64 zonep.zone_io_phyread_bytes zp.io_size }
                  s.zones }) ∧
        (zp.io_type = .ZIO_TYPE_WRITE →
          zfs_zone_zio_done s zp now =
            { globals :=
                { s.globals with
                  wr_lat :=
                    { (compute_new_sys_avg now s.globals.wr_lat).2 with
                      cycle_cnt := (compute_new_sys_avg now s.globals.wr_lat).2.cycle_cnt + 1,
                      cycle_lat := (compute_new_sys_avg now s.globals.wr_lat).2.cycle_lat +
                        (now - zp.io_start) } },
              zones :=
                zone_store zp.io_zoneid
                  { zonep with
                    wr_ops :=
                      { (compute_historical_zone_cnt now zonep.wr_ops).2 with
                        cycle_cnt :=
                          (compute_historical_zone_cnt now zonep.wr_ops).2.cycle_cnt + 1 },
                    zone_io_phywrite_ops := add_64 zonep.zone_io_phywrite_ops 1,
                    zone_io_phywrite_bytes := add_64 zonep.zone_io_phywrite_bytes zp.io_size }
                  s.zones })) ∧
    (s.globals.zfs_zone_delay_enable = false → zfs_zone_zio_done s zp now = s) ∧
    (zone_find_by_id s.zones zp.io_zoneid = none → zfs_zone_zio_done s zp now = s) := by
  refine ⟨?_, zio_done_disabled s zp now, zio_done_gone s zp now⟩
  intro zonep he hz h0 h1
  have hlat := to_int_of_range (now - zp.io_start) h0 h1
  constructor
  · intro ht
    rw [zio_done_read s zp now zonep he hz ht, hlat]
  · intro ht
    rw [zio_done_write s zp now zonep he hz ht, hlat]

/-- A write of 8192 bytes started at 100 and completed at 350 by zone 1 with the
throttle enabled; the same completion with the throttle disabled; and a
completion for a zone that is gone. -/
theorem zio_done_accounting_witness :
    zfs_zone_zio_done ⟨initial_globals, [new_zone 0, new_zone 1]⟩
        ⟨1, 100, .ZIO_TYPE_WRITE, 8192⟩ 350 =
      ⟨{ initial_globals with wr_lat := ⟨0, 1, 250, 0⟩ },
        [new_zone 0,
          { new_zone 1 with
            wr_ops := ⟨0, 1, 0⟩, zone_io_phywrite_ops := 1,
            zone_io_phywrite_bytes := 8192 }]⟩ ∧
      zfs_zone_zio_done
          ⟨{ initial_globals with zfs_zone_delay_enable := false }, [new_zone 0, new_zone 1]⟩
          ⟨1, 100, .ZIO_TYPE_WRITE, 8192⟩ 350 =
        ⟨{ initial_globals with zfs_zone_delay_enable := false }, [new_zone 0, new_zone 1]⟩ ∧
      zfs_zone_zio_done ⟨initial_globals, [new_zone 0, new_zone 1]⟩
        ⟨5, 100, .ZIO_TYPE_WRITE, 8192⟩ 350 = ⟨initial_globals, [new_zone 0, new_zone 1]⟩ :=
  ⟨((zio_done_accounting ⟨initial_globals, [new_zone 0, new_zone 1]⟩
      ⟨1, 100, .ZIO_TYPE_WRITE, 8192⟩ 350).1 (new_zone 1) rfl (by decide) (by decide)
      (by decide)).2 rfl |>.trans (by decide),
    (zio_done_accounting
      ⟨{ initial_globals with zfs_zone_delay_enable := false }, [new_zone 0, new_zone 1]⟩
      ⟨1, 100, .ZIO_TYPE_WRITE, 8192⟩ 350).2.1 rfl,
    (zio_done_accounting ⟨initial_globals, [new_zone 0, new_zone 1]⟩
      ⟨5, 100, .ZIO_TYPE_WRITE, 8192⟩ 350).2.2 (by decide)⟩

/-- A re-evaluation keeps the delay of the global zone at 0. -/
theorem zfs_zone_wait_adjust_global_zero (now : Int) (g : zfs_zone_globals)
    (zones : List zone_t)
    (h : ∀ z ∈ zones, z.zone_id = GLOBAL_ZONEID → z.zone_io_delay = 0) :
    ∀ z ∈ (zfs_zone_wait_adjust now g zones).2.2,
      z.zone_id = GLOBAL_ZONEID → z.zone_io_delay = 0 := by
  intro z hz hid
  obtain ⟨z0, hz0, rfl⟩ := zfs_zone_wait_adjust_mem now g zones z hz
  rw [delay_cb_zone_id, calculate_cb_zone_id] at hid
  have h1 := delay_cb_not_above_average (get_sys_avg_lat now g).2
    (zfs_zone_wait_adjust now g zones).1
    (zfs_zone_wait_adjust_calculate_cb z0 (first_pass_stats now g)).2.1
    (by rw [calculate_cb_skipped _ _ (Or.inl hid)]; exact Nat.zero_le _)
  rw [calculate_cb_delay, h z0 hz0 hid] at h1
  omega

theorem wait_adjust_seq_global_zero (ts : List Int) (g : zfs_zone_globals)
    (zones : List zone_t)
    (h : ∀ z ∈ zones, z.zone_id = GLOBAL_ZONEID → z.zone_io_delay = 0) :
    ∀ z ∈ (wait_adjust_seq ts g zones).2, z.zone_id = GLOBAL_ZONEID → z.zone_io_delay = 0 := by
  induction ts generalizing g zones with
  | nil => exact h
  | cons t ts ih =>
    rw [wait_adjust_seq]
    exact ih _ _ (zfs_zone_wait_adjust_global_zero t g zones h)

theorem logical_op_account_global_zero (s : throttle_state) (zonep : zone_t) (now : Int)
    (type : zfs_zone_iop_type_t) (size : Nat) (hz : zonep ∈ s.zones)
    (h : ∀ z ∈ s.zones, z.zone_id = GLOBAL_ZONEID → z.zone_io_delay = 0) :
    ∀ z ∈ (logical_op_account s zonep now type size).zones,
      z.zone_id = GLOBAL_ZONEID → z.zone_io_delay = 0 := by
  obtain ⟨⟨znew, hzones, hid, _, hdelay⟩, _, _⟩ :=
    logical_op_account_frame s zonep now type size
  intro z hzm hz0
  rw [hzones] at hzm
  rcases mem_zone_store _ _ _ _ hzm with rfl | hmem
  · rw [hdelay]
    exact h zonep hz (by rw [← hid]; exact hz0)
  · exact h z hmem hz0

/-- C20: the global zone is excluded from throttling.  For a zone with identifier
0, every re-evaluation (`zfs_zone_wait_adjust`) sets `io_util` to 0 whatever its
counters hold and does not increase its `io_delay`; hence if its `io_delay` is 0
it is 0 after every sequence of re-evaluations, and after every call of
`zfs_zone_io_throttle`, which never waits for the global zone. -/
theorem global_zone_excluded :
    (∀ (now : Int) (g : zfs_zone_globals) (zones : List zone_t),
      ∀ p ∈ List.zip zones (zfs_zone_wait_adjust now g zones).2.2,
        p.1.zone_id = GLOBAL_ZONEID →
          p.2.zone_id = GLOBAL_ZONEID ∧ p.2.zone_io_util = 0 ∧
            p.2.zone_io_delay ≤ p.1.zone_io_delay) ∧
    (∀ (ts : List Int) (g : zfs_zone_globals) (zones : List zone_t),
      (∀ z ∈ zones, z.zone_id = GLOBAL_ZONEID → z.zone_io_delay = 0) →
        ∀ z ∈ (wait_adjust_seq ts g zones).2,
          z.zone_id = GLOBAL_ZONEID → z.zone_io_delay = 0) ∧
    (∀ (s : throttle_state) (curzone : Int) (now : Int) (type : zfs_zone_iop_type_t)
        (size : Nat),
      (∀ z ∈ s.zones, z.zone_id = GLOBAL_ZONEID → z.zone_io_delay = 0) →
        (∀ z ∈ (zfs_zone_io_throttle s curzone now type size).1.zones,
          z.zone_id = GLOBAL_ZONEID → z.zone_io_delay = 0) ∧
        (curzone = GLOBAL_ZONEID → (zfs_zone_io_throttle s curzone now type size).2 = 0)) := by
  refine ⟨?_, wait_adjust_seq_global_zero, ?_⟩
  · intro now g zones p hp hid
    obtain ⟨_, hp2⟩ := zfs_zone_wait_adjust_pair now g zones p hp
    have hu : (zfs_zone_wait_adjust_calculate_cb p.1 (first_pass_stats now g)).2.1.zone_io_util
        = 0 := calculate_cb_skipped _ _ (Or.inl hid)
    have h1 := delay_cb_not_above_average (get_sys_avg_lat now g).2
      (zfs_zone_wait_adjust now g zones).1
      (zfs_zone_wait_adjust_calculate_cb p.1 (first_pass_stats now g)).2.1
      (by rw [hu]; exact Nat.zero_le _)
    rw [← hp2, calculate_cb_delay] at h1
    refine ⟨?_, ?_, h1⟩
    · rw [hp2, delay_cb_zone_id, calculate_cb_zone_id]
      exact hid
    · rw [hp2, delay_cb_util]
      exact hu
  · intro s curzone now type size h
    cases hf : zone_find_by_id s.zones curzone with
    | none =>
      have hr : zfs_zone_io_throttle s curzone now type size = (s, 0) := by
        simp only [zfs_zone_io_throttle, hf]
      rw [hr]
      exact ⟨h, fun _ => rfl⟩
    | some zonep =>
      have hmem := (zone_find_by_id_some _ _ _ hf).1
      have ha := logical_op_account_global_zero s zonep now type size hmem h
      -- the state in which the delay of the caller is read
      have key : ∀ a : throttle_state,
          (∀ z ∈ a.zones, z.zone_id = GLOBAL_ZONEID → z.zone_io_delay = 0) →
          (∀ z ∈ (match zone_find_by_id a.zones curzone with
              | none => (a, 0)
              | some zonep =>
                if to_uint16 zonep.zone_io_delay > 0 then (a, to_uint16 zonep.zone_io_delay)
                else (a, 0) : throttle_state × Nat).1.zones,
              z.zone_id = GLOBAL_ZONEID → z.zone_io_delay = 0) ∧
            (curzone = GLOBAL_ZONEID →
              (match zone_find_by_id a.zones curzone with
                | none => (a, 0)
                | some zonep =>
                  if to_uint16 zonep.zone_io_delay > 0 then (a, to_uint16 zonep.zone_io_delay)
                  else (a, 0) : throttle_state × Nat).2 = 0) := by
        intro a hinv
        cases hfa : zone_find_by_id a.zones curzone with
        | none => exact ⟨hinv, fun _ => rfl⟩
        | some z =>
          obtain ⟨hzm, hzid⟩ := zone_find_by_id_some _ _ _ hfa
          simp only
          split_ifs with hw
          · refine ⟨hinv, fun hc => ?_⟩
            have := hinv z hzm (by rw [hzid]; exact hc)
            rw [this] at hw
            exact absurd hw (by decide)
          · exact ⟨hinv, fun _ => rfl⟩
      simp only [zfs_zone_io_throttle, hf]
      split_ifs with he hdue
      · exact ⟨ha, fun _ => rfl⟩
      · exact key _ (zfs_zone_wait_adjust_global_zero now _ _ ha)
      · exact key _ ha

/-- The global zone with 10000 reads next to a light zone: its utilization is set
to 0, its delay of 0 stays, and its own call of the throttle does not wait. -/
theorem global_zone_excluded_witness :
    (zfs_zone_wait_adjust 1500000 initial_globals
        [{ new_zone 0 with rd_ops := ⟨0, 10000, 0⟩, zone_io_util := 77 },
          { new_zone 1 with rd_ops := ⟨0, 100, 0⟩ }]).2.2.map
          (fun z => (z.zone_id, z.zone_io_util, z.zone_io_delay)) =
        [(0, 0, 0), (1, 100000000, 0)] ∧
      (zfs_zone_io_throttle
        ⟨initial_globals,
          [{ new_zone 0 with rd_ops := ⟨0, 10000, 0⟩ },
            { new_zone 1 with rd_ops := ⟨0, 100, 0⟩ }]⟩
        GLOBAL_ZONEID 1500000 .ZFS_ZONE_IOP_LOGICAL_WRITE 512).2 = 0 :=
  ⟨by decide,
    (global_zone_excluded.2.2
      ⟨initial_globals,
        [{ new_zone 0 with rd_ops := ⟨0, 10000, 0⟩ },
          { new_zone 1 with rd_ops := ⟨0, 100, 0⟩ }]⟩
      GLOBAL_ZONEID 1500000 .ZFS_ZONE_IOP_LOGICAL_WRITE 512 (by decide)).2 rfl⟩

/-- C21: logical-write accounting touches only the logical-write counter.
`add_iop(zone, now, LOGICAL_WRITE, 0)`, as `zfs_zone_io_throttle` calls it, rolls
the logical-write counter of the zone forward if due and then increments its
`cycle_cnt` by exactly 1; it leaves the read counter, the physical-write counter
and every other field of the zone unchanged, and it leaves the file-scope
variables unchanged, in particular the two system latency aggregators `rd_lat`
and `wr_lat` (`cycle_start`, `cycle_cnt`, `cycle_lat`, `sys_avg_lat`): no latency
sample is added, not even a zero one.  The same holds for the accounting part of
`zfs_zone_io_throttle` on a logical write. -/
theorem logical_write_accounting (g : zfs_zone_globals) (zonep : zone_t) (now : Int) :
    (add_iop g zonep now .ZFS_ZONE_IOP_LOGICAL_WRITE 0).1 =
        { zonep with
          lwr_ops :=
            { (compute_historical_zone_cnt now zonep.lwr_ops).2 with
              cycle_cnt := (compute_historical_zone_cnt now zonep.lwr_ops).2.cycle_cnt + 1 } } ∧
      (now - zonep.lwr_ops.cycle_start < ZONE_CYCLE_TIME →
        (add_iop g zonep now .ZFS_ZONE_IOP_LOGICAL_WRITE 0).1.lwr_ops =
          { zonep.lwr_ops with cycle_cnt := zonep.lwr_ops.cycle_cnt + 1 }) ∧
      (ZONE_CYCLE_TIME ≤ now - zonep.lwr_ops.cycle_start →
        (add_iop g zonep now .ZFS_ZONE_IOP_LOGICAL_WRITE 0).1.lwr_ops =
          { cycle_start := now, cycle_cnt := 0 + 1,
            zone_avg_cnt :=
              rolled_avg ((now - zonep.lwr_ops.cycle_start).tdiv 2000000) zonep.lwr_ops }) ∧
      (add_iop g zonep now .ZFS_ZONE_IOP_LOGICAL_WRITE 0).1.rd_ops = zonep.rd_ops ∧
      (add_iop g zonep now .ZFS_ZONE_IOP_LOGICAL_WRITE 0).1.wr_ops = zonep.wr_ops ∧
      (add_iop g zonep now .ZFS_ZONE_IOP_LOGICAL_WRITE 0).2 = g ∧
      (add_iop g zonep now .ZFS_ZONE_IOP_LOGICAL_WRITE 0).2.rd_lat = g.rd_lat ∧
      (add_iop g zonep now .ZFS_ZONE_IOP_LOGICAL_WRITE 0).2.wr_lat = g.wr_lat ∧
      (∀ (s : throttle_state) (size : Nat),
        (logical_op_account s zonep now .ZFS_ZONE_IOP_LOGICAL_WRITE size).globals = s.globals) := by
  refine ⟨rfl, ?_, ?_, rfl, rfl, rfl, rfl, rfl, fun s size => ?_⟩
  · intro h
    show ({ (compute_historical_zone_cnt now zonep.lwr_ops).2 with
      cycle_cnt := (compute_historical_zone_cnt now zonep.lwr_ops).2.cycle_cnt + 1 } :
        sys_zio_cntr_t) = _
    simp [compute_historical_zone_cnt, h]
  · intro h
    have hlt : ¬ now - zonep.lwr_ops.cycle_start < 2000000 := by
      simp only [ZONE_CYCLE_TIME] at h
      omega
    show ({ (compute_historical_zone_cnt now zonep.lwr_ops).2 with
      cycle_cnt := (compute_historical_zone_cnt now zonep.lwr_ops).2.cycle_cnt + 1 } :
        sys_zio_cntr_t) = _
    rw [compute_historical_zone_cnt_closed]
    simp [spec_roll_forward, hlt, rolled_avg]
  · unfold logical_op_account
    rw [if_pos rfl]
    rfl

/-- A zone whose logical-write counter is (0, 3, 8) writes at 2500000, one
generation later: the counter rolls to history 3 and counts the write; a write
at 1500000 only counts; the aggregators, here holding samples, stay as they are,
whereas a read with latency 0 would add a sample to `rd_lat`. -/
theorem logical_write_accounting_witness :
    ZONE_CYCLE_TIME ≤ (2500000 : Int) -
        ({ new_zone 1 with lwr_ops := ⟨0, 3, 8⟩ } : zone_t).lwr_ops.cycle_start ∧
      (add_iop { initial_globals with rd_lat := ⟨0, 4, 2000, 100⟩, wr_lat := ⟨0, 2, 60, 20⟩ }
        { new_zone 1 with lwr_ops := ⟨0, 3, 8⟩ } 2500000 .ZFS_ZONE_IOP_LOGICAL_WRITE 0) =
        ({ new_zone 1 with lwr_ops := ⟨2500000, 1, 3⟩ },
          { initial_globals with rd_lat := ⟨0, 4, 2000, 100⟩, wr_lat := ⟨0, 2, 60, 20⟩ }) ∧
      (add_iop { initial_globals with rd_lat := ⟨0, 4, 2000, 100⟩, wr_lat := ⟨0, 2, 60, 20⟩ }
        { new_zone 1 with lwr_ops := ⟨0, 3, 8⟩ } 1500000 .ZFS_ZONE_IOP_LOGICAL_WRITE 0).1.lwr_ops =
        ⟨0, 4, 8⟩ ∧
      (add_iop { initial_globals with rd_lat := ⟨0, 4, 2000, 100⟩, wr_lat := ⟨0, 2, 60, 20⟩ }
        { new_zone 1 with lwr_ops := ⟨0, 3, 8⟩ } 500000 .ZFS_ZONE_IOP_READ 0).2.rd_lat =
        ⟨0, 5, 2000, 100⟩ ∧
      (add_iop { initial_globals with rd_lat := ⟨0, 4, 2000, 100⟩, wr_lat := ⟨0, 2, 60, 20⟩ }
        { new_zone 1 with lwr_ops := ⟨0, 3, 8⟩ } 2500000 .ZFS_ZONE_IOP_LOGICAL_WRITE 0).1.lwr_ops =
        { cycle_start := 2500000, cycle_cnt := 0 + 1,
          zone_avg_cnt := rolled_avg (((2500000 : Int) - 0).tdiv 2000000) ⟨0, 3, 8⟩ } :=
  ⟨by decide, by decide, by decide, by decide,
    (logical_write_accounting
      { initial_globals with rd_lat := ⟨0, 4, 2000, 100⟩, wr_lat := ⟨0, 2, 60, 20⟩ }
      { new_zone 1 with lwr_ops := ⟨0, 3, 8⟩ } 2500000).2.2.1 (by decide)⟩

end ZfsZone
